import Mathlib

/-
Shallow embedding of the server-side simulation core of the tower-defense
repository, together with proofs settling the frozen claims C1..C10.

Source files embedded (TypeScript):
  shared/types/constants.ts      -- grid geometry, stats tables, pricing constants
  shared/logic/pathfinding.ts    -- findPath, wouldBlockPath, validateTowerPlacement
  server/systems/PhaseSystem.ts  -- phase state machine
  server/systems/WaveSystem.ts   -- wave definition, spawn queue (and EnemySystem)
  server/systems/ProjectileSystem.ts -- applyDamage (kill economy)
  server/game/GameRoom.ts        -- dynamic pricing, upgrade/sell economy, tick loop

Modeling conventions:
  JavaScript numbers are modeled as rationals; every arithmetic operation the
  claims touch is exact at the relevant values.  Math.round(x) in JS is
  floor(x + 1/2), embedded as jsRound.  JS objects keyed by id strings are
  association lists (JS object keys are unique, so erase/update by key act on
  the single matching entry).  Math.random-driven choices (queue shuffling)
  and the floating-point square root used in sub-step movement interpolation
  are abstracted as explicit function parameters; every theorem below holds
  for all instantiations of those parameters.
-/

namespace TD

/-! Basic enumerations, mirroring shared/types/game.types.ts. -/

inductive CellType
  | empty
  | tower
  | spawn
  | goal
deriving DecidableEq, Repr

inductive PlayerSide
  | left
  | right
deriving DecidableEq, Repr

inductive TowerType
  | basic
  | sniper
  | splash
  | slow
deriving DecidableEq, Repr

inductive EnemyType
  | basic
  | fast
  | tank
  | boss
deriving DecidableEq, Repr

inductive GamePhase
  | waiting
  | build
  | combat
  | gameOver
deriving DecidableEq, Repr

inductive GameMode
  | single
  | multi
deriving DecidableEq, Repr

/-! Constants from shared/types/constants.ts. -/

def GRID_WIDTH : Nat := 60

def GRID_HEIGHT : Nat := 30

def LEFT_ZONE_END : Nat := 29

def RIGHT_ZONE_START : Nat := 30

/-- GOAL_ROWS from constants.ts: rows of the goal band at each side's edge. -/
def GOAL_ROWS : List Nat := [12, 13, 14, 15, 16, 17]

def SPAWN_X_MIN : Nat := 29

def SPAWN_X_MAX : Nat := 30

def SPAWN_Y_ROWS : List Nat := [14, 15]

/-- PRICE_ESCALATION from constants.ts (0.12). -/
def PRICE_ESCALATION : ℚ := 12 / 100

/-- Embeds SELL_REFUND constant from constants.ts (0.6). -/
def SELL_REFUND_FACTOR : ℚ := 6 / 10

def CREDITS_PER_WAVE : ℚ := 50

def BUILD_PHASE_DURATION : ℚ := 30

/-- Embeds JS Math.round: round half toward positive infinity. -/
def jsRound (q : ℚ) : ℤ := ⌊q + 1 / 2⌋

/-! Stats tables (TOWER_STATS / ENEMY_STATS in constants.ts). -/

structure TowerStats where
  cost : ℚ
  damage : ℚ
  range : ℚ
  fireRate : ℚ
  upgradeCostMultiplier : ℚ
  upgradeStatMultiplier : ℚ
  splashRadius : ℚ
  slowAmount : ℚ
  slowDuration : ℚ
  maxHealth : ℚ
  maxAmmo : ℚ
  ammoCostPerRound : ℚ
  incomePerTurn : ℚ
  maintenancePerTurn : ℚ
deriving DecidableEq, Repr

def TOWER_STATS : TowerType → TowerStats
  | .basic =>
      { cost := 50, damage := 10, range := 3, fireRate := 2,
        upgradeCostMultiplier := 15 / 10, upgradeStatMultiplier := 14 / 10,
        splashRadius := 0, slowAmount := 0, slowDuration := 0,
        maxHealth := 200, maxAmmo := 100, ammoCostPerRound := 1 / 2,
        incomePerTurn := 5, maintenancePerTurn := 2 }
  | .sniper =>
      { cost := 120, damage := 50, range := 8, fireRate := 1 / 2,
        upgradeCostMultiplier := 16 / 10, upgradeStatMultiplier := 15 / 10,
        splashRadius := 0, slowAmount := 0, slowDuration := 0,
        maxHealth := 120, maxAmmo := 25, ammoCostPerRound := 2,
        incomePerTurn := 10, maintenancePerTurn := 5 }
  | .splash =>
      { cost := 150, damage := 20, range := 4, fireRate := 1,
        upgradeCostMultiplier := 15 / 10, upgradeStatMultiplier := 14 / 10,
        splashRadius := 2, slowAmount := 0, slowDuration := 0,
        maxHealth := 160, maxAmmo := 50, ammoCostPerRound := 1,
        incomePerTurn := 12, maintenancePerTurn := 6 }
  | .slow =>
      { cost := 80, damage := 5, range := 3, fireRate := 15 / 10,
        upgradeCostMultiplier := 14 / 10, upgradeStatMultiplier := 13 / 10,
        splashRadius := 0, slowAmount := 1 / 2, slowDuration := 2,
        maxHealth := 200, maxAmmo := 60, ammoCostPerRound := 1 / 2,
        incomePerTurn := 7, maintenancePerTurn := 3 }

structure EnemyStats where
  health : ℚ
  speed : ℚ
  creditValue : ℚ
  contactDamage : ℚ
deriving DecidableEq, Repr

def ENEMY_STATS : EnemyType → EnemyStats
  | .basic => { health := 100, speed := 2, creditValue := 10, contactDamage := 1 / 2 }
  | .fast => { health := 50, speed := 4, creditValue := 15, contactDamage := 3 / 10 }
  | .tank => { health := 500, speed := 1, creditValue := 50, contactDamage := 2 }
  | .boss => { health := 2000, speed := 3 / 2, creditValue := 200, contactDamage := 5 }

/-! Association-list operations standing in for JS objects keyed by id.
JS object keys are unique; update and erase therefore touch exactly the
matching entry. -/

section Assoc

variable {κ ν : Type} [DecidableEq κ]

def lookupA (k : κ) : List (κ × ν) → Option ν
  | [] => none
  | (a, b) :: rest => if a = k then some b else lookupA k rest

def updateA (k : κ) (f : ν → ν) : List (κ × ν) → List (κ × ν)
  | [] => []
  | (a, b) :: rest => if a = k then (a, f b) :: updateA k f rest else (a, b) :: updateA k f rest

def eraseA (k : κ) (l : List (κ × ν)) : List (κ × ν) :=
  l.filter (fun q => q.1 ≠ k)

def keysA (l : List (κ × ν)) : List κ := l.map Prod.fst

end Assoc

/-! Grid and pathfinding, from shared/logic/pathfinding.ts. -/

/-- Integer grid cell, mirroring the GridCell interface. -/
structure Cell where
  x : Nat
  y : Nat
deriving DecidableEq, Repr

/-- Grid occupancy matrix; cells y x mirrors grid.cells[y][x]. -/
structure GridState where
  cells : Nat → Nat → CellType

/-- Functional write to grid.cells[y][x]. -/
def setCell (g : GridState) (y x : Nat) (c : CellType) : GridState :=
  ⟨fun y2 x2 => if y2 = y ∧ x2 = x then c else g.cells y2 x2⟩

/-- Neighbor exploration order for a LEFT-bound search: toward goal (x-1) first,
then vertical, then away from goal.  Offsets are (dx, dy). -/
def DIRECTIONS_LEFT : List (Int × Int) := [(-1, 0), (0, -1), (0, 1), (1, 0)]

def DIRECTIONS_RIGHT : List (Int × Int) := [(1, 0), (0, -1), (0, 1), (-1, 0)]

def sideDirs : PlayerSide → List (Int × Int)
  | .left => DIRECTIONS_LEFT
  | .right => DIRECTIONS_RIGHT

def goalX : PlayerSide → Nat
  | .left => 0
  | .right => GRID_WIDTH - 1

def cellKey (x y : Nat) : Nat := y * GRID_WIDTH + x

def keyX (k : Nat) : Nat := k % GRID_WIDTH

def keyY (k : Nat) : Nat := k / GRID_WIDTH

def keyCell (k : Nat) : Cell := ⟨keyX k, keyY k⟩

/-- Initial BFS frontier: every non-tower cell of the 2x2 center spawn block,
in the source's row-major push order. -/
def spawnSeeds (g : GridState) : List Nat :=
  SPAWN_Y_ROWS.flatMap fun row =>
    (List.range' SPAWN_X_MIN (SPAWN_X_MAX + 1 - SPAWN_X_MIN)).filterMap fun x =>
      if g.cells row x ≠ CellType.tower then some (cellKey x row) else none

/-- One neighbor-exploration pass of the BFS inner for-loop: threads the list
of keys pushed this round, the visited set, and the parent map across the
direction list of the requested side. -/
def exploreDirs (g : GridState) (side : PlayerSide) (x y : Nat)
    (acc : List Nat × List Nat × List (Nat × Nat)) : List Nat × List Nat × List (Nat × Nat) :=
  (sideDirs side).foldl
    (fun acc d =>
      let nx : Int := (x : Int) + d.1
      let ny : Int := (y : Int) + d.2
      if nx < 0 ∨ (GRID_WIDTH : Int) ≤ nx ∨ ny < 0 ∨ (GRID_HEIGHT : Int) ≤ ny then acc
      else if side = PlayerSide.left ∧ (SPAWN_X_MAX : Int) < nx then acc
      else if side = PlayerSide.right ∧ nx < (SPAWN_X_MIN : Int) then acc
      else
        let nkey := cellKey nx.toNat ny.toNat
        if nkey ∈ acc.2.1 then acc
        else if g.cells ny.toNat nx.toNat = CellType.tower then acc
        else (acc.1 ++ [nkey], nkey :: acc.2.1, (nkey, cellKey x y) :: acc.2.2))
    acc

/-- BFS main loop.  The source advances a head pointer over a growing array;
here the queue is a list consumed from the front with new keys appended at the
back.  Each pushed key is marked visited at push time, so the loop pops at
most GRID_WIDTH * GRID_HEIGHT + 4 keys; the fuel is sized accordingly and is
never exhausted on grids of source dimensions. -/
def bfsLoop (g : GridState) (side : PlayerSide) :
    Nat → List Nat → List Nat → List (Nat × Nat) → Option (Nat × List (Nat × Nat))
  | 0, _, _, _ => none
  | _ + 1, [], _, _ => none
  | fuel + 1, key :: rest, visited, parent =>
    if keyX key = goalX side ∧ keyY key ∈ GOAL_ROWS then some (key, parent)
    else
      let step := exploreDirs g side (keyX key) (keyY key) ([], visited, parent)
      bfsLoop g side fuel (rest ++ step.1) step.2.1 step.2.2

def BFS_FUEL : Nat := GRID_WIDTH * GRID_HEIGHT + 4

/-- Path reconstruction: walk the parent map from the goal key back to a seed
(absent parent entry mirrors the -1 sentinel), prepending cells, which yields
the source's push-then-reverse order.  BFS parent maps are acyclic, so the
fuel is never exhausted in any reachable call. -/
def rebuildPath : Nat → Nat → List (Nat × Nat) → List Cell → List Cell
  | 0, _, _, acc => acc
  | fuel + 1, cur, parent, acc =>
    match lookupA cur parent with
    | none => keyCell cur :: acc
    | some p => rebuildPath fuel p parent (keyCell cur :: acc)

/-- Embeds findPath(grid, targetSide): BFS from the open spawn-block cells to
the first reached goal-band cell of the requested side. -/
def findPath (g : GridState) (side : PlayerSide) : Option (List Cell) :=
  match bfsLoop g side BFS_FUEL (spawnSeeds g) (spawnSeeds g) [] with
  | none => none
  | some (goalKey, parent) => some (rebuildPath BFS_FUEL goalKey parent [])

/-- Embeds wouldBlockPath(grid, x, y).  The source saves the previous cell
value, marks the cell TOWER, recomputes both routes, and writes the saved
value back; the returned grid is the state of the mutated grid after that
final write, so that restoration is provable about the definition itself. -/
def wouldBlockPath (g : GridState) (x y : Nat) : Bool × GridState :=
  let prev := g.cells y x
  let g1 := setCell g y x CellType.tower
  let leftPath := findPath g1 PlayerSide.left
  let rightPath := findPath g1 PlayerSide.right
  let g2 := setCell g1 y x prev
  (leftPath.isNone || rightPath.isNone, g2)

/-- Embeds isInSpawnZone(x, y). -/
def isInSpawnZone (x y : Nat) : Bool :=
  decide (SPAWN_X_MIN ≤ x ∧ x ≤ SPAWN_X_MAX ∧ y ∈ SPAWN_Y_ROWS)

/-- Rejection reasons of validateTowerPlacement, one constructor per reason
string of the source ('Out of bounds', 'Cell occupied', 'Cannot build in
spawn zone', 'Not in your zone', 'Would block enemy path'). -/
inductive PlacementError
  | outOfBounds
  | cellOccupied
  | spawnZone
  | wrongZone
  | wouldBlock
deriving DecidableEq, Repr

/-- Embeds validateTowerPlacement(grid, x, y, playerSide); none means valid.
Coordinates are integers (the command handler sanitizes to integers before
calling), checked in the source's order: bounds, occupancy, spawn zone, build
zone, then the speculative path probe. -/
def validateTowerPlacement (g : GridState) (x y : Int) (playerSide : PlayerSide) :
    Option PlacementError :=
  if x < 0 ∨ (GRID_WIDTH : Int) ≤ x ∨ y < 0 ∨ (GRID_HEIGHT : Int) ≤ y then
    some PlacementError.outOfBounds
  else if g.cells y.toNat x.toNat ≠ CellType.empty then some PlacementError.cellOccupied
  else if isInSpawnZone x.toNat y.toNat then some PlacementError.spawnZone
  else if playerSide = PlayerSide.left ∧ (LEFT_ZONE_END : Int) < x then
    some PlacementError.wrongZone
  else if playerSide = PlayerSide.right ∧ x < (RIGHT_ZONE_START : Int) then
    some PlacementError.wrongZone
  else if (wouldBlockPath g x.toNat y.toNat).1 then some PlacementError.wouldBlock
  else none

/-- Per-side x bound that every BFS-touched key satisfies: a LEFT search
never passes the right edge of the shared spawn block (x at most
SPAWN_X_MAX) and a RIGHT search never passes its left edge (x at least
SPAWN_X_MIN). -/
def sideKeyOk (side : PlayerSide) (k : Nat) : Prop :=
  (side = PlayerSide.left → keyX k ≤ SPAWN_X_MAX) ∧
  (side = PlayerSide.right → SPAWN_X_MIN ≤ keyX k)

/-! World-state records, mirroring shared/types/game.types.ts.  Ids live as
association-list keys; JS numbers are rationals. -/

structure Position where
  x : ℚ
  y : ℚ
deriving DecidableEq, Repr

structure Player where
  side : PlayerSide
  credits : ℚ
  health : ℚ
  maxHealth : ℚ
  isReady : Bool
deriving DecidableEq, Repr

structure Tower where
  type : TowerType
  position : Cell
  ownerId : String
  level : Nat
  damage : ℚ
  range : ℚ
  fireRate : ℚ
  lastFireTime : ℚ
  targetId : Option String
  health : ℚ
  maxHealth : ℚ
  ammo : ℚ
  maxAmmo : ℚ
deriving DecidableEq, Repr

structure Enemy where
  type : EnemyType
  position : Position
  targetSide : PlayerSide
  health : ℚ
  maxHealth : ℚ
  speed : ℚ
  creditValue : ℚ
  path : List Cell
  pathIndex : Nat
  spawnDelay : ℚ
  spawned : Bool
deriving DecidableEq, Repr

structure Projectile where
  position : Position
  targetId : String
  damage : ℚ
  speed : ℚ
  towerId : String
  isSplash : Bool
  splashRadius : ℚ
  isSlowing : Bool
  slowAmount : ℚ
  slowDuration : ℚ
deriving DecidableEq, Repr

structure GameSettings where
  startingHealth : ℚ
  startingCredits : ℚ
  firstWaveEnemies : ℚ
  difficultyCurve : List ℚ
deriving DecidableEq, Repr

structure GameState where
  gameMode : GameMode
  phase : GamePhase
  waveNumber : Nat
  phaseTimeRemaining : ℚ
  startingCredits : ℚ
  globalPurchaseCounts : TowerType → Nat
  players : List (String × Player)
  towers : List (String × Tower)
  enemies : List (String × Enemy)
  projectiles : List (String × Projectile)
  grid : GridState
  settings : GameSettings
  waveEnemiesRemaining : Nat
  waveEnemiesTotal : Nat
  waveEnemiesKilled : Nat

/-! PhaseSystem, from server/systems/PhaseSystem.ts. -/

/-- Embeds PhaseSystem.transitionToCombat: enter COMBAT, arm the one-tick
sentinel on the remaining-spawn counter, refill every tower's ammo, clear
every ready flag. -/
def transitionToCombat (s : GameState) : GameState :=
  { s with
    phase := GamePhase.combat,
    phaseTimeRemaining := 0,
    waveEnemiesRemaining := 1,
    towers := s.towers.map fun q => (q.1, { q.2 with ammo := (TOWER_STATS q.2.type).maxAmmo }),
    players := s.players.map fun q => (q.1, { q.2 with isReady := false }) }

/-- Embeds PhaseSystem.transitionToBuild: bump the wave number, enter BUILD,
and settle each player's economy (flat stipend plus tower income minus tower
maintenance), clearing ready flags. -/
def transitionToBuild (s : GameState) : GameState :=
  { s with
    waveNumber := s.waveNumber + 1,
    phase := GamePhase.build,
    phaseTimeRemaining := BUILD_PHASE_DURATION,
    players := s.players.map fun q =>
      let totalIncome := s.towers.foldl
        (fun a t => if t.2.ownerId = q.1 then a + (TOWER_STATS t.2.type).incomePerTurn else a) 0
      let totalMaintenance := s.towers.foldl
        (fun a t => if t.2.ownerId = q.1 then a + (TOWER_STATS t.2.type).maintenancePerTurn else a) 0
      (q.1, { q.2 with
              credits := q.2.credits + CREDITS_PER_WAVE + totalIncome - totalMaintenance,
              isReady := false }) }

/-- Embeds PhaseSystem.update: in COMBAT, first check the wave-end condition
(no live enemies and an exhausted spawn counter) and transition to BUILD when
it holds; afterwards, if the phase is still COMBAT, enter GAME_OVER when some
player's health is at or below zero. -/
def phaseSystemUpdate (s : GameState) : GameState :=
  if s.phase = GamePhase.waiting ∨ s.phase = GamePhase.gameOver then s
  else
    let s1 :=
      if s.phase = GamePhase.combat ∧ s.enemies.length = 0 ∧ s.waveEnemiesRemaining ≤ 0
      then transitionToBuild s else s
    if s1.phase = GamePhase.combat ∧ s1.players.any (fun q => decide (q.2.health ≤ 0))
    then { s1 with phase := GamePhase.gameOver } else s1

/-- Embeds PhaseSystem.handlePlayerReady: mark the sender ready during BUILD
and transition to COMBAT once every player in the session is ready. -/
def handlePlayerReady (s : GameState) (pid : String) : GameState :=
  match lookupA pid s.players with
  | none => s
  | some _ =>
    if s.phase ≠ GamePhase.build then s
    else
      let s1 := { s with players := updateA pid (fun p => { p with isReady := true }) s.players }
      if s1.players.all (fun q => q.2.isReady) then transitionToCombat s1 else s1

/-- Embeds the tail of GameRoom.tick: after the per-tick pipeline (passed in
as a function) has run, the loop interval is cleared exactly when the
resulting phase is GAME_OVER (handleGameOver ends in stopLoop).  The Bool
component tracks whether the tick timer is still armed. -/
def gameRoomTickStop (pipeline : GameState → GameState) (s : GameState) (loopRunning : Bool) :
    GameState × Bool :=
  let s2 := pipeline s
  if s2.phase = GamePhase.gameOver then (s2, false) else (s2, loopRunning)

/-! ProjectileSystem kill economy, from server/systems/ProjectileSystem.ts.
Both call sites (the primary hit and each splash hit) funnel through
applyDamage, and ProjectileSystem.update only runs during COMBAT. -/

/-- Embeds ProjectileSystem.applyDamage(state, enemyId, damage, towerId):
subtract the damage; on a kill, credit the firing tower's owner with the
enemy's credit value (when tower and owner still exist), increment the wave
kill counter, and delete the enemy. -/
def applyDamage (s : GameState) (enemyId : String) (damage : ℚ) (towerId : String) : GameState :=
  match lookupA enemyId s.enemies with
  | none => s
  | some enemy =>
    let enemy2 := { enemy with health := enemy.health - damage }
    if enemy2.health ≤ 0 then
      let players2 :=
        match lookupA towerId s.towers with
        | some tower =>
          match lookupA tower.ownerId s.players with
          | some _ =>
            updateA tower.ownerId (fun o => { o with credits := o.credits + enemy.creditValue })
              s.players
          | none => s.players
        | none => s.players
      { s with
        players := players2,
        waveEnemiesKilled := s.waveEnemiesKilled + 1,
        enemies := eraseA enemyId s.enemies }
    else { s with enemies := updateA enemyId (fun _ => enemy2) s.enemies }

/-! EnemySystem, from server/systems/EnemySystem.ts. -/

/-- Orthogonal adjacency offsets, in the source's iteration order. -/
def ADJ_DIRS : List (Int × Int) := [(0, -1), (1, 0), (0, 1), (-1, 0)]

/-- Sub-step movement interpolation.  The source computes
dist = Math.sqrt(dx*dx + dy*dy), ratio = min(speed*dt / dist, 1) and adds
(dx*ratio, dy*ratio) to the position using floating-point arithmetic; the
irrational square root has no exact rational embedding, so the rule is an
explicit parameter (arguments: current position, next waypoint, speed, tick
delta) and every theorem below holds for all movement rules. -/
def MoveRule : Type := Position → Cell → ℚ → ℚ → Position

/-- Inner tower loop of the contact-damage pass: every tower occupying cell
(ax, ay) has its health reduced by cd, and any tower whose health is then at
or below zero is appended (once) to the removal list. -/
def damageTowersAt : List (String × Tower) → List String → ℚ → Int → Int →
    List (String × Tower) × List String
  | [], rm, _, _, _ => ([], rm)
  | (tid, t) :: rest, rm, cd, ax, ay =>
    if (t.position.x : Int) = ax ∧ (t.position.y : Int) = ay then
      let t2 := { t with health := t.health - cd }
      let rm2 := if t2.health ≤ 0 ∧ tid ∉ rm then rm ++ [tid] else rm
      let res := damageTowersAt rest rm2 cd ax ay
      ((tid, t2) :: res.1, res.2)
    else
      let res := damageTowersAt rest rm cd ax ay
      ((tid, t) :: res.1, res.2)

/-- One direction of the contact-damage loop: skip the neighbor cell when it
is out of bounds, otherwise damage the towers standing on it. -/
def contactDirStep (cd : ℚ) (ex ey : Int) (acc : List (String × Tower) × List String)
    (d : Int × Int) : List (String × Tower) × List String :=
  let ax := ex + d.1
  let ay := ey + d.2
  if ax < 0 ∨ (GRID_WIDTH : Int) ≤ ax ∨ ay < 0 ∨ (GRID_HEIGHT : Int) ≤ ay then acc
  else damageTowersAt acc.1 acc.2 cd ax ay

/-- Contact-damage pass of one enemy: its grid cell is its rounded position;
each in-bounds orthogonally adjacent cell damages the towers standing there
by the enemy type's contact damage. -/
def contactPass (e : Enemy) (tw : List (String × Tower)) (rm : List String) :
    List (String × Tower) × List String :=
  ADJ_DIRS.foldl
    (contactDirStep (ENEMY_STATS e.type).contactDamage (jsRound e.position.x)
      (jsRound e.position.y))
    (tw, rm)

/-- Embeds EnemySystem.enemyReachedGoal: the first player whose side matches
the enemy's target side loses health equal to the passed damage (the enemy's
credit value), floored at zero; credits are untouched. -/
def enemyReachedGoal : List (String × Player) → PlayerSide → ℚ → List (String × Player)
  | [], _, _ => []
  | (pid, p) :: rest, side, dmg =>
    if p.side = side then (pid, { p with health := max 0 (p.health - dmg) }) :: rest
    else (pid, p) :: enemyReachedGoal rest side dmg

/-- Accumulator threaded through the per-enemy iteration of
EnemySystem.update: current towers and players, plus the deferred removal
lists that the source applies only after the full iteration. -/
structure EnemyAcc where
  towers : List (String × Tower)
  players : List (String × Player)
  towersToRemove : List String
  enemiesToRemove : List String

/-- Body of the per-enemy loop of EnemySystem.update: skip unspawned enemies;
apply contact damage; then either resolve the goal event (route exhausted) or
move along the route — snapping to the waypoint when within epsilon (the
source tests sqrt(dx^2+dy^2) < 0.05, equivalent to dx^2+dy^2 < (1/20)^2), and
otherwise interpolating via the movement rule. -/
def enemyStep (move : MoveRule) (dt : ℚ) (eid : String) (e : Enemy) (acc : EnemyAcc) :
    Enemy × EnemyAcc :=
  if e.spawned = false then (e, acc)
  else
    let cp := contactPass e acc.towers acc.towersToRemove
    let acc1 := { acc with towers := cp.1, towersToRemove := cp.2 }
    match e.path.get? (e.pathIndex + 1) with
    | none =>
      (e, { acc1 with
            players := enemyReachedGoal acc1.players e.targetSide e.creditValue,
            enemiesToRemove := acc1.enemiesToRemove ++ [eid] })
    | some target =>
      let dx := (target.x : ℚ) - e.position.x
      let dy := (target.y : ℚ) - e.position.y
      if dx ^ 2 + dy ^ 2 < (1 / 20) ^ 2 then
        ({ e with position := ⟨(target.x : ℚ), (target.y : ℚ)⟩, pathIndex := e.pathIndex + 1 },
         acc1)
      else ({ e with position := move e.position target e.speed dt }, acc1)

/-- The full per-enemy iteration, in list order, rebuilding the enemy mapping
with each enemy's in-place mutations. -/
def enemiesPass (move : MoveRule) (dt : ℚ) :
    List (String × Enemy) → EnemyAcc → List (String × Enemy) × EnemyAcc
  | [], acc => ([], acc)
  | (eid, e) :: rest, acc =>
    let r := enemyStep move dt eid e acc
    let rr := enemiesPass move dt rest r.2
    ((eid, r.1) :: rr.1, rr.2)

/-- Embeds EnemySystem.update: iterate all enemies (contact damage, movement,
goal events), then delete the enemies that reached their goal, then delete
the destroyed towers and free their grid cells. -/
def enemySystemUpdate (move : MoveRule) (s : GameState) (dt : ℚ) : GameState :=
  if s.phase ≠ GamePhase.combat then s
  else
    let pass := enemiesPass move dt s.enemies ⟨s.towers, s.players, [], []⟩
    let enemies2 := pass.2.enemiesToRemove.foldl (fun es id => eraseA id es) pass.1
    let twg := pass.2.towersToRemove.foldl
      (fun (acc : List (String × Tower) × GridState) id =>
        match lookupA id acc.1 with
        | some t => (eraseA id acc.1, setCell acc.2 t.position.y t.position.x CellType.empty)
        | none => acc)
      (pass.2.towers, s.grid)
    { s with enemies := enemies2, towers := twg.1, players := pass.2.players, grid := twg.2 }

/-! WaveSystem, from server/systems/WaveSystem.ts. -/

def WAVE_SPAWN_DURATION : ℚ := 45

/-- Embeds getDifficultyMultiplier(waveNumber, curve): indexed lookup for
waves 1..curve length, clamped below at index 0, extrapolated past the end
along the final segment's slope. -/
def getDifficultyMultiplier (waveNumber : Nat) (curve : List ℚ) : ℚ :=
  let idx : Int := (waveNumber : Int) - 1
  if idx < 0 then curve.getD 0 0
  else if idx < (curve.length : Int) then curve.getD idx.toNat 0
  else
    let lastSlope := curve.getD (curve.length - 1) 0 - curve.getD (curve.length - 2) 0
    curve.getD (curve.length - 1) 0 + lastSlope * ((idx : ℚ) - (curve.length : ℚ) + 1)

structure WaveEntry where
  type : EnemyType
  count : ℤ
  interval : ℚ
deriving DecidableEq, Repr

/-- Embeds getWaveDefinition(waveNumber, settings): staged per-type counts
scaled by the first-wave setting and the difficulty curve, with a shared
inter-spawn interval of the target spawn duration divided by the total count
(floored at 0.05; the source's division is reachable only with a positive
total). -/
def getWaveDefinition (waveNumber : Nat) (settings : GameSettings) : List WaveEntry :=
  let countScale := settings.firstWaveEnemies / 60
  let scale := getDifficultyMultiplier waveNumber settings.difficultyCurve /
    getDifficultyMultiplier 1 settings.difficultyCurve
  let base : ℚ := (waveNumber : ℚ)
  let entries : List (EnemyType × ℤ) :=
    [(EnemyType.basic, jsRound ((4 + base * 2) * 10 * countScale * scale))]
      ++ (if 3 ≤ waveNumber then
            [(EnemyType.fast, jsRound ((2 + base) * 10 * countScale * scale))] else [])
      ++ (if 5 ≤ waveNumber then
            [(EnemyType.tank, jsRound (((waveNumber / 2 : Nat) : ℚ) * 10 * countScale * scale))]
          else [])
      ++ (if 0 < waveNumber ∧ waveNumber % 10 = 0 then [(EnemyType.boss, 10)] else [])
  let totalEnemies : ℤ := entries.foldl (fun a e => a + e.2) 0
  let interval := max (1 / 20) (WAVE_SPAWN_DURATION / (totalEnemies : ℚ))
  entries.map fun e => ⟨e.1, e.2, interval⟩

inductive SpawnSide
  | left
  | right
  | both
deriving DecidableEq, Repr

def toSpawnSide : PlayerSide → SpawnSide
  | .left => SpawnSide.left
  | .right => SpawnSide.right

structure QueueEntry where
  type : EnemyType
  side : SpawnSide
  delay : ℚ
deriving DecidableEq, Repr

/-- Embeds the queue-building stage of WaveSystem.startWave: one queue entry
per counted enemy; in a single-player session each entry targets the present
player's side (LEFT when absent), in a versus session each entry carries the
BOTH marker and spawns one enemy per side at dequeue time. -/
def startWaveQueue (s : GameState) : List QueueEntry :=
  let definition := getWaveDefinition s.waveNumber s.settings
  let singleSide : Option PlayerSide :=
    if s.gameMode = GameMode.single then
      some ((s.players.head?.map fun q => q.2.side).getD PlayerSide.left)
    else none
  definition.flatMap fun entry =>
    (List.range entry.count.toNat).map fun _ =>
      match singleSide with
      | some side => ⟨entry.type, toSpawnSide side, entry.interval⟩
      | none => ⟨entry.type, SpawnSide.both, entry.interval⟩

/-- Swap two positions of a list (both indices in range, else no-op). -/
def swapAt {α : Type} (l : List α) (i j : Nat) : List α :=
  match l.get? i, l.get? j with
  | some a, some b => (l.set i b).set j a
  | _, _ => l

/-- Embeds the Fisher-Yates shuffle closing WaveSystem.startWave.  The source
draws j = floor(Math.random() * (i + 1)) ∈ [0, i] for i from length-1 down
to 1; the draws are abstracted as the function parameter js. -/
def fisherYates {α : Type} (js : Nat → Nat) (l : List α) : List α :=
  ((List.range' 1 (l.length - 1)).reverse).foldl (fun acc i => swapAt acc i (js i)) l

/-- Sum of the per-type spawn counts of a wave definition (loop iterations of
the queue builder). -/
def waveCountSum (d : List WaveEntry) : Nat := (d.map fun e => e.count.toNat).sum

/-! Dynamic pricing and the upgrade/sell economy, from
server/game/GameRoom.ts. -/

/-- Embeds GameRoom.getDynamicPrice(type, baseCost): BASIC towers always pay
the base cost; other types pay the base cost escalated by the global
purchase count of their type. -/
def getDynamicPrice (counts : TowerType → Nat) (type : TowerType) (baseCost : ℚ) : ℚ :=
  if type = TowerType.basic then baseCost
  else (jsRound (baseCost * (1 + (counts type : ℚ) * PRICE_ESCALATION)) : ℚ)

/-- Embeds the purchase tracking shared by handlePlaceTower and
handleUpgradeTower: non-BASIC placements and upgrades bump the global count
of their type; BASIC ones leave the table untouched. -/
def trackPurchase (counts : TowerType → Nat) (type : TowerType) : TowerType → Nat :=
  if type = TowerType.basic then counts
  else fun t => if t = type then counts t + 1 else counts t

/-- Credits charged by an accepted handlePlaceTower of the given type. -/
def placeTowerCost (counts : TowerType → Nat) (type : TowerType) : ℚ :=
  getDynamicPrice counts type (TOWER_STATS type).cost

/-- Credits charged by an accepted handleUpgradeTower of a tower at the given
level: the rounded level-scaled base upgrade cost, dynamically priced. -/
def upgradeTowerCost (counts : TowerType → Nat) (type : TowerType) (level : Nat) : ℚ :=
  getDynamicPrice counts type
    ((jsRound ((TOWER_STATS type).cost * (TOWER_STATS type).upgradeCostMultiplier * (level : ℚ)) : ℚ))

/-- Embeds the totalInvested computation of handleSellTower: base cost plus
the rounded undiscounted upgrade cost of every level step already taken. -/
def sellTotalInvested (type : TowerType) (level : Nat) : ℚ :=
  (List.range' 1 (level - 1)).foldl
    (fun a (lvl : Nat) =>
      a + (jsRound ((TOWER_STATS type).cost * (TOWER_STATS type).upgradeCostMultiplier * (lvl : ℚ)) : ℚ))
    (TOWER_STATS type).cost

/-- Embeds the refund paid by handleSellTower. -/
def sellRefundOf (type : TowerType) (level : Nat) : ℚ :=
  (jsRound (sellTotalInvested type level * SELL_REFUND_FACTOR) : ℚ)

/-- Charges of n successive accepted upgrade commands on one tower starting
at the given level and purchase table: each upgrade charges the dynamically
priced level-scaled cost, then bumps the level and (for non-BASIC types) the
purchase table, exactly as handleUpgradeTower does. -/
def upgradeChargeTrace (type : TowerType) :
    Nat → Nat → (TowerType → Nat) → List ℚ × (TowerType → Nat) × Nat
  | level, 0, counts => ([], counts, level)
  | level, n + 1, counts =>
    let charge := upgradeTowerCost counts type level
    let rest := upgradeChargeTrace type (level + 1) n (trackPurchase counts type)
    (charge :: rest.1, rest.2)

/-! Specification-level observables used by the claim statements. -/

/-- True when the neighbor cell of the rounded enemy position in direction d
is in bounds and carries the given tower cell: the exact condition under
which contactDirStep damages a tower standing there. -/
def dirHits (ex ey : Int) (pos : Cell) (d : Int × Int) : Bool :=
  !decide (ex + d.1 < 0 ∨ (GRID_WIDTH : Int) ≤ ex + d.1 ∨ ey + d.2 < 0 ∨
      (GRID_HEIGHT : Int) ≤ ey + d.2) &&
    decide ((pos.x : Int) = ex + d.1 ∧ (pos.y : Int) = ey + d.2)

/-- True when the spawned enemy's rounded grid cell is orthogonally adjacent
(through an in-bounds neighbor cell) to the given tower cell — exactly the
condition under which EnemySystem.update's contact loop damages a tower
standing there. -/
def enemyAdjacentTo (e : Enemy) (pos : Cell) : Bool :=
  e.spawned && ADJ_DIRS.any (dirHits (jsRound e.position.x) (jsRound e.position.y) pos)

/-- Total contact damage a tower at the given cell accumulates over one
EnemySystem.update tick: the sum of the per-type contact damage of every
spawned adjacent enemy. -/
def totalContactDamage (enemies : List (String × Enemy)) (pos : Cell) : ℚ :=
  (enemies.map fun q =>
    if enemyAdjacentTo q.2 pos then (ENEMY_STATS q.2.type).contactDamage else 0).sum

/-- True when the enemy is spawned and its captured route is exhausted (no
waypoint follows the current route index), which makes EnemySystem.update
resolve its goal event this tick. -/
def enemyAtGoal (e : Enemy) : Bool :=
  e.spawned && (e.path.get? (e.pathIndex + 1)).isNone

/-- Total goal damage charged against the player defending the given side in
one EnemySystem.update tick: the sum of credit values of the spawned,
route-exhausted enemies targeting that side. -/
def goalCreditSum (enemies : List (String × Enemy)) (side : PlayerSide) : ℚ :=
  (enemies.map fun q =>
    if enemyAtGoal q.2 && decide (q.2.targetSide = side) then q.2.creditValue else 0).sum

/-! Concrete fixtures for witnesses and counterexamples. -/

def emptyGrid : GridState := ⟨fun _ _ => CellType.empty⟩

/-- Grid whose only open cells are a corridor along row 13 (x from 0 to 30)
plus the two spawn cells (30, 14) and (30, 15); the two left spawn cells are
walled, so a LEFT route must leave the spawn block through column 30. -/
def corridorGrid : GridState :=
  ⟨fun y x =>
    if (y = 13 ∧ x ≤ 30) ∨ (y = 14 ∧ x = 30) ∨ (y = 15 ∧ x = 30) then CellType.empty
    else CellType.tower⟩

/-- Grid with towers on three of the four spawn-block cells; occupying the
last one, (29, 14), removes every BFS seed and blocks both sides. -/
def spawnBlockGrid : GridState :=
  ⟨fun y x =>
    if (y = 15 ∧ x = 29) ∨ (y = 14 ∧ x = 30) ∨ (y = 15 ∧ x = 30) then CellType.tower
    else CellType.empty⟩

def onesCurve : List ℚ := [1, 1, 1, 1, 1, 1, 1, 1, 1, 1, 1, 1, 1, 1, 1, 1, 1, 1, 1, 1]

/-- Fixture settings: the defaults of the settings screen (starting health
500, starting credits 2000, 60 first-wave enemies) with a flat difficulty
curve. -/
def fixtureSettings : GameSettings :=
  { startingHealth := 500, startingCredits := 2000, firstWaveEnemies := 60,
    difficultyCurve := onesCurve }

def zeroCounts : TowerType → Nat := fun _ => 0

/-- Degenerate movement rule (used only to instantiate theorems that hold
for every movement rule). -/
def noMove : MoveRule := fun p _ _ _ => p

def fixtureStateBase : GameState :=
  { gameMode := GameMode.multi, phase := GamePhase.waiting, waveNumber := 0,
    phaseTimeRemaining := 0, startingCredits := 2000, globalPurchaseCounts := zeroCounts,
    players := [], towers := [], enemies := [], projectiles := [], grid := emptyGrid,
    settings := fixtureSettings, waveEnemiesRemaining := 0, waveEnemiesTotal := 0,
    waveEnemiesKilled := 0 }

def fixturePlayer : Player :=
  { side := PlayerSide.left, credits := 2000, health := 500, maxHealth := 500, isReady := false }

/-- Versus-session state entering wave 1 COMBAT, for queue-length facts. -/
def fixtureWaveState : GameState :=
  { fixtureStateBase with phase := GamePhase.combat, waveNumber := 1 }

/-- A basic enemy standing exactly on cell (5, 14) with its route exhausted. -/
def fixtureGoalEnemy : Enemy :=
  { type := EnemyType.basic, position := ⟨5, 14⟩, targetSide := PlayerSide.left,
    health := 100, maxHealth := 100, speed := 2, creditValue := 10,
    path := [⟨5, 14⟩], pathIndex := 0, spawnDelay := 0, spawned := true }

/-- A basic enemy on cell (5, 14) with one waypoint left, at distance 1. -/
def fixtureMovingEnemy : Enemy :=
  { fixtureGoalEnemy with path := [⟨5, 14⟩, ⟨4, 14⟩] }

def fixtureTower : Tower :=
  { type := TowerType.basic, position := ⟨5, 13⟩, ownerId := "p1", level := 1,
    damage := 10, range := 3, fireRate := 2, lastFireTime := 0, targetId := none,
    health := 200, maxHealth := 200, ammo := 100, maxAmmo := 100 }

/-- COMBAT state with one enemy adjacent to one tower, for contact damage. -/
def fixtureContactState : GameState :=
  { fixtureStateBase with
    phase := GamePhase.combat,
    enemies := [("e1", fixtureMovingEnemy)], towers := [("t1", fixtureTower)] }

/-- COMBAT state where a tank worth 50 credits reaches the goal of a player
holding only 10 health. -/
def fixtureLowHealthState : GameState :=
  { fixtureStateBase with
    phase := GamePhase.combat,
    players := [("p1", { fixturePlayer with health := 10 })],
    enemies := [("e1", { fixtureGoalEnemy with
                         type := EnemyType.tank, health := 500, speed := 1,
                         creditValue := 50 })] }

/-- COMBAT state with a half-dead enemy, a firing tower and its owner, for
the kill-economy path of applyDamage. -/
def fixtureKillState : GameState :=
  { fixtureStateBase with
    phase := GamePhase.combat,
    players := [("p1", fixturePlayer)],
    towers := [("t1", fixtureTower)],
    enemies := [("e1", { fixtureGoalEnemy with health := 5 })] }

/-- COMBAT state in which the last enemy of the wave has just brought a
player to zero health and been removed: the wave-end condition and the
game-over condition hold on the same tick. -/
def fixtureRaceState : GameState :=
  { fixtureStateBase with
    phase := GamePhase.combat,
    players := [("p1", { fixturePlayer with health := 0 })],
    waveEnemiesRemaining := 0 }

/-- COMBAT state with a dead player while enemies remain on the field. -/
def fixtureDeadPlayerState : GameState :=
  { fixtureStateBase with
    phase := GamePhase.combat,
    players := [("p1", { fixturePlayer with health := 0 })],
    enemies := [("e1", fixtureGoalEnemy)],
    waveEnemiesRemaining := 1 }

/-- BUILD state with a single not-yet-ready player. -/
def fixtureBuildState : GameState :=
  { fixtureStateBase with
    phase := GamePhase.build, waveNumber := 1,
    players := [("p1", fixturePlayer)] }

/-- A ready RIGHT-side player. -/
def readyPlayer : Player :=
  { side := PlayerSide.right, credits := 2000, health := 500, maxHealth := 500, isReady := true }

/-- BUILD state with an unready LEFT player and a ready RIGHT player. -/
def fixtureTwoPlayerState : GameState :=
  { fixtureStateBase with
    phase := GamePhase.build, waveNumber := 1,
    players := [("p1", fixturePlayer), ("p2", readyPlayer)] }

/-! Helper lemmas on the association-list operations. -/

theorem lookupA_updateA_self {κ ν : Type} [DecidableEq κ] (k : κ) (f : ν → ν)
    (l : List (κ × ν)) : lookupA k (updateA k f l) = (lookupA k l).map f := by
  induction l with
  | nil => rfl
  | cons q rest ih =>
    obtain ⟨a, b⟩ := q
    by_cases h : a = k
    · simp [lookupA, updateA, h]
    · simp [lookupA, updateA, h, ih]

theorem lookupA_updateA_ne {κ ν : Type} [DecidableEq κ] {k k2 : κ} (hk : k2 ≠ k) (f : ν → ν)
    (l : List (κ × ν)) : lookupA k2 (updateA k f l) = lookupA k2 l := by
  induction l with
  | nil => rfl
  | cons q rest ih =>
    obtain ⟨a, b⟩ := q
    by_cases hak : a = k
    · have hkk : k ≠ k2 := fun hc => hk hc.symm
      simp [lookupA, updateA, hak, hkk, ih]
    · simp [lookupA, updateA, hak, ih]

theorem lookupA_eraseA_self {κ ν : Type} [DecidableEq κ] (k : κ) (l : List (κ × ν)) :
    lookupA k (eraseA k l) = none := by
  induction l with
  | nil => rfl
  | cons q rest ih =>
    obtain ⟨a, b⟩ := q
    by_cases h : a = k
    · simpa [eraseA, h] using ih
    · simpa [eraseA, lookupA, h] using ih

theorem lookupA_eraseA_ne {κ ν : Type} [DecidableEq κ] {k k2 : κ} (hk : k2 ≠ k)
    (l : List (κ × ν)) : lookupA k2 (eraseA k l) = lookupA k2 l := by
  induction l with
  | nil => rfl
  | cons q rest ih =>
    obtain ⟨a, b⟩ := q
    have ih2 : lookupA k2 (List.filter (fun q => !decide (q.1 = k)) rest) = lookupA k2 rest := by
      simpa [eraseA] using ih
    by_cases hak : a = k
    · have hkk : k ≠ k2 := fun hc => hk hc.symm
      simp [eraseA, lookupA, hak, hkk, ih2]
    · simp [eraseA, lookupA, hak, ih2]

theorem lookupA_mem {κ ν : Type} [DecidableEq κ] {k : κ} {v : ν} {l : List (κ × ν)}
    (h : lookupA k l = some v) : (k, v) ∈ l := by
  induction l with
  | nil => simp [lookupA] at h
  | cons q rest ih =>
    obtain ⟨a, b⟩ := q
    by_cases ha : a = k
    · subst ha
      simp [lookupA] at h
      simp [h]
    · simp [lookupA, ha] at h
      exact List.mem_cons_of_mem _ (ih h)

theorem mem_updateA_of_ne {κ ν : Type} [DecidableEq κ] {k k2 : κ} {v : ν} {l : List (κ × ν)}
    (hm : (k2, v) ∈ l) (hk : k2 ≠ k) (f : ν → ν) : (k2, v) ∈ updateA k f l := by
  induction l with
  | nil => simp at hm
  | cons q rest ih =>
    obtain ⟨a, b⟩ := q
    rcases List.mem_cons.mp hm with h | h
    · rw [Prod.mk.injEq] at h
      obtain ⟨ha, hb⟩ := h
      subst ha
      subst hb
      simp [updateA, hk]
    · by_cases hak : a = k <;> simp [updateA, hak] <;> exact Or.inr (ih h)

/-- Folding addition of a mapped value equals the initial value plus the
mapped sum. -/
theorem foldl_add_map {α : Type} (g : α → ℚ) (l : List α) (c : ℚ) :
    l.foldl (fun a x => a + g x) c = c + (l.map g).sum := by
  induction l generalizing c with
  | nil => simp
  | cons x rest ih => simp [ih, add_assoc]

theorem jsRound_intCast (z : ℤ) : jsRound ((z : ℤ) : ℚ) = z := by
  unfold jsRound
  rw [add_comm, Int.floor_add_int]
  norm_num

/-! Claim C10: dynamic pricing never applies to BASIC towers. -/

/-- Claim C10 (confirmed).  The effective price of a BASIC tower equals the
base cost passed in, independent of the global purchase-count table (this
covers both the placement and the upgrade call sites of getDynamicPrice);
BASIC purchases never change the table, while every non-BASIC placement or
upgrade bumps exactly its own type's count by one. -/
theorem dynamic_pricing_exempts_basic :
    (∀ (counts : TowerType → Nat) (b : ℚ), getDynamicPrice counts TowerType.basic b = b) ∧
    (∀ (counts : TowerType → Nat),
      placeTowerCost counts TowerType.basic = (TOWER_STATS TowerType.basic).cost) ∧
    (∀ (counts : TowerType → Nat), trackPurchase counts TowerType.basic = counts) ∧
    (∀ (counts : TowerType → Nat) (t : TowerType), t ≠ TowerType.basic →
      trackPurchase counts t t = counts t + 1 ∧
      ∀ t2, t2 ≠ t → trackPurchase counts t t2 = counts t2) := by
  refine ⟨fun _ _ => rfl, fun _ => rfl, fun _ => rfl, fun counts t ht => ⟨?_, fun t2 h2 => ?_⟩⟩
  · simp [trackPurchase, ht]
  · simp [trackPurchase, ht, h2]

/-- Witness for C10: a SNIPER purchase bumps the SNIPER count from 0 to 1
and leaves the BASIC count at 0. -/
theorem dynamic_pricing_exempts_basic_witness :
    TowerType.sniper ≠ TowerType.basic ∧
    trackPurchase zeroCounts TowerType.sniper TowerType.sniper = zeroCounts TowerType.sniper + 1 ∧
    trackPurchase zeroCounts TowerType.sniper TowerType.basic = zeroCounts TowerType.basic :=
  ⟨by decide,
   (dynamic_pricing_exempts_basic.2.2.2 zeroCounts TowerType.sniper (by decide)).1,
   (dynamic_pricing_exempts_basic.2.2.2 zeroCounts TowerType.sniper (by decide)).2
     TowerType.basic (by decide)⟩

/-! Claim C2: the sell refund versus the credits actually charged. -/

/-- The undiscounted upgrade base cost of a BASIC tower at a given level is
exactly 75 times the level, and dynamic pricing passes it through. -/
theorem upgradeTowerCost_basic (counts : TowerType → Nat) (level : Nat) :
    upgradeTowerCost counts TowerType.basic level = ((75 * (level : ℤ) : ℤ) : ℚ) := by
  unfold upgradeTowerCost getDynamicPrice
  rw [if_pos rfl]
  have hc : (TOWER_STATS TowerType.basic).cost = 50 := rfl
  have hu : (TOWER_STATS TowerType.basic).upgradeCostMultiplier = 15 / 10 := rfl
  have harg : (TOWER_STATS TowerType.basic).cost *
      (TOWER_STATS TowerType.basic).upgradeCostMultiplier * (level : ℚ) =
      ((75 * (level : ℤ) : ℤ) : ℚ) := by
    rw [hc, hu]
    push_cast
    ring
  rw [harg, jsRound_intCast]

/-- The charges of n accepted upgrades of a BASIC tower starting at level
one: 75 times each successive level, whatever the purchase table does. -/
theorem upgradeChargeTrace_basic (n : Nat) : ∀ (level : Nat) (counts : TowerType → Nat),
    (upgradeChargeTrace TowerType.basic level n counts).1 =
      (List.range' level n).map fun (l : Nat) => ((75 * (l : ℤ) : ℤ) : ℚ) := by
  induction n with
  | zero => intro level counts; rfl
  | succ m ih =>
    intro level counts
    simp only [upgradeChargeTrace, List.range']
    rw [upgradeTowerCost_basic, ih]
    simp

/-- Sum of an integer-valued mapped list, cast to the rationals. -/
theorem sum_map_intCast {α : Type} (f : α → ℤ) (l : List α) :
    (l.map fun x => ((f x : ℤ) : ℚ)).sum = (((l.map f).sum : ℤ) : ℚ) := by
  induction l with
  | nil => simp
  | cons x rest ih => simp [ih]

/-- The source's totalInvested for a BASIC tower, as an integer. -/
theorem sellTotalInvested_basic (L : Nat) :
    sellTotalInvested TowerType.basic L =
      ((50 + ((List.range' 1 (L - 1)).map fun (l : Nat) => 75 * (l : ℤ)).sum : ℤ) : ℚ) := by
  have hterm : ∀ lvl : Nat,
      (jsRound ((TOWER_STATS TowerType.basic).cost *
        (TOWER_STATS TowerType.basic).upgradeCostMultiplier * (lvl : ℚ)) : ℚ) =
      ((75 * (lvl : ℤ) : ℤ) : ℚ) := by
    intro lvl
    have hc : (TOWER_STATS TowerType.basic).cost = 50 := rfl
    have hu : (TOWER_STATS TowerType.basic).upgradeCostMultiplier = 15 / 10 := rfl
    have harg : (TOWER_STATS TowerType.basic).cost *
        (TOWER_STATS TowerType.basic).upgradeCostMultiplier * (lvl : ℚ) =
        ((75 * (lvl : ℤ) : ℤ) : ℚ) := by
      rw [hc, hu]
      push_cast
      ring
    rw [harg, jsRound_intCast]
  unfold sellTotalInvested
  rw [foldl_add_map]
  have hmap : (List.range' 1 (L - 1)).map
      (fun (lvl : Nat) => (jsRound ((TOWER_STATS TowerType.basic).cost *
        (TOWER_STATS TowerType.basic).upgradeCostMultiplier * (lvl : ℚ)) : ℚ)) =
      (List.range' 1 (L - 1)).map fun (lvl : Nat) => ((75 * (lvl : ℤ) : ℤ) : ℚ) :=
    List.map_congr_left fun lvl _ => hterm lvl
  rw [hmap, sum_map_intCast]
  have hc : (TOWER_STATS TowerType.basic).cost = 50 := rfl
  rw [hc]
  push_cast
  ring

/-- The BASIC investment total is always a multiple of five. -/
theorem sellTotalInvested_basic_dvd (n : Nat) :
    (5 : ℤ) ∣ 50 + ((List.range' 1 n).map fun (l : Nat) => 75 * (l : ℤ)).sum := by
  induction n with
  | zero => decide
  | succ m ih =>
    have hconc : List.range' 1 (m + 1) = List.range' 1 m ++ [1 + m] := by
      rw [List.range'_concat]
      norm_num
    rw [hconc]
    simp only [List.map_append, List.sum_append, List.map_cons, List.map_nil,
      List.sum_cons, List.sum_nil]
    have hre : 50 + (((List.range' 1 m).map fun (l : Nat) => 75 * (l : ℤ)).sum + (75 * ((1 + m : Nat) : ℤ) + 0)) =
        (50 + ((List.range' 1 m).map fun (l : Nat) => 75 * (l : ℤ)).sum) + 75 * ((1 + m : Nat) : ℤ) := by
      ring
    rw [hre]
    exact dvd_add ih (Dvd.dvd.mul_right (by decide) _)

/-- Claim C2, amended (corrected).  For a BASIC tower — the type dynamic
pricing exempts — the refund of a sell after n accepted upgrades equals
exactly 0.6 times the placement charge plus the sum of the actually charged
upgrade costs, for every initial global purchase table.  (For non-BASIC
types the source computes the refund from the undiscounted base costs, so
the equality fails; see the counterexample.) -/
theorem sell_refund_roundtrip_basic (n : Nat) (counts : TowerType → Nat) :
    sellRefundOf TowerType.basic (n + 1) =
      SELL_REFUND_FACTOR *
        (placeTowerCost counts TowerType.basic +
          ((upgradeChargeTrace TowerType.basic 1 n (trackPurchase counts TowerType.basic)).1).sum) := by
  obtain ⟨m, hm⟩ := sellTotalInvested_basic_dvd n
  have hsum : ((upgradeChargeTrace TowerType.basic 1 n (trackPurchase counts TowerType.basic)).1).sum =
      ((((List.range' 1 n).map fun (l : Nat) => 75 * (l : ℤ)).sum : ℤ) : ℚ) := by
    rw [upgradeChargeTrace_basic, sum_map_intCast]
  have hplace : placeTowerCost counts TowerType.basic = 50 := rfl
  have hinv : sellTotalInvested TowerType.basic (n + 1) = ((5 * m : ℤ) : ℚ) := by
    rw [sellTotalInvested_basic]
    simp only [Nat.add_sub_cancel]
    rw [hm]
  have htotal : placeTowerCost counts TowerType.basic +
      ((upgradeChargeTrace TowerType.basic 1 n (trackPurchase counts TowerType.basic)).1).sum =
      ((5 * m : ℤ) : ℚ) := by
    rw [hplace, hsum, ← hm]
    push_cast
    ring
  rw [htotal]
  unfold sellRefundOf SELL_REFUND_FACTOR
  rw [hinv]
  have harg : ((5 * m : ℤ) : ℚ) * (6 / 10) = ((3 * m : ℤ) : ℚ) := by
    push_cast
    ring
  rw [harg, jsRound_intCast]
  push_cast
  ring

/-- Counterexample for C2 as stated: a SNIPER tower placed on a fresh table
and upgraded once is charged 120 + 215 credits (the upgrade is dynamically
priced), but selling at level 2 refunds round(0.6 x 312) = 187, not
0.6 x 335 = 201. -/
theorem sell_refund_ignores_dynamic_pricing_cex :
    sellRefundOf TowerType.sniper 2 ≠
      SELL_REFUND_FACTOR *
        (placeTowerCost zeroCounts TowerType.sniper +
          ((upgradeChargeTrace TowerType.sniper 1 1 (trackPurchase zeroCounts TowerType.sniper)).1).sum) := by
  have h1 : sellRefundOf TowerType.sniper 2 = 187 := by
    norm_num [sellRefundOf, sellTotalInvested, jsRound, TOWER_STATS, SELL_REFUND_FACTOR,
      List.range']
  have h2 : placeTowerCost zeroCounts TowerType.sniper = 120 := by
    norm_num [placeTowerCost, getDynamicPrice, zeroCounts, jsRound, TOWER_STATS,
      PRICE_ESCALATION]
  have h3 : (upgradeChargeTrace TowerType.sniper 1 1 (trackPurchase zeroCounts TowerType.sniper)).1 = [215] := by
    simp [upgradeChargeTrace, upgradeTowerCost, getDynamicPrice, trackPurchase, zeroCounts,
      TOWER_STATS, PRICE_ESCALATION]
    norm_num [jsRound]
  rw [h1, h2, h3]
  norm_num [SELL_REFUND_FACTOR]

/-! Claim C1: the kill path of ProjectileSystem.applyDamage. -/

/-- Claim C1 (confirmed).  Any damage application (primary or splash both go
through applyDamage) that brings the struck enemy's health to zero or below
adds the enemy's credit value to the credits of the player owning the firing
tower, increments the wave kill counter by one, and removes the enemy from
the enemy mapping. -/
theorem applyDamage_kill_economy (s : GameState) (eid tid : String) (dmg : ℚ)
    (e : Enemy) (t : Tower) (owner : Player)
    (he : lookupA eid s.enemies = some e)
    (hkill : e.health - dmg ≤ 0)
    (ht : lookupA tid s.towers = some t)
    (ho : lookupA t.ownerId s.players = some owner) :
    lookupA t.ownerId (applyDamage s eid dmg tid).players =
      some { owner with credits := owner.credits + e.creditValue } ∧
    (applyDamage s eid dmg tid).waveEnemiesKilled = s.waveEnemiesKilled + 1 ∧
    lookupA eid (applyDamage s eid dmg tid).enemies = none := by
  unfold applyDamage
  simp only [he, ht, ho]
  rw [if_pos hkill]
  refine ⟨?_, rfl, ?_⟩
  · rw [lookupA_updateA_self, ho]
    rfl
  · exact lookupA_eraseA_self eid s.enemies

/-- Witness for C1: a 10-damage hit on a 5-health enemy worth 10 credits
pays its tower's owner 10 credits, bumps the kill counter and deletes the
enemy. -/
theorem applyDamage_kill_economy_witness :
    lookupA "p1" (applyDamage fixtureKillState "e1" 10 "t1").players =
      some { fixturePlayer with credits := fixturePlayer.credits + 10 } ∧
    (applyDamage fixtureKillState "e1" 10 "t1").waveEnemiesKilled =
      fixtureKillState.waveEnemiesKilled + 1 ∧
    lookupA "e1" (applyDamage fixtureKillState "e1" 10 "t1").enemies = none :=
  applyDamage_kill_economy fixtureKillState "e1" "t1" 10
    { fixtureGoalEnemy with health := 5 } fixtureTower fixturePlayer
    (by rfl) (show (5 : ℚ) - 10 ≤ 0 by norm_num) (by rfl) (by rfl)

/-! Claims C7 and C9: the phase state machine. -/

/-- In COMBAT, when some player is at or below zero health and the wave-end
condition does not hold, PhaseSystem.update enters GAME_OVER. -/
theorem phaseSystemUpdate_enters_game_over (s : GameState)
    (hc : s.phase = GamePhase.combat)
    (hdead : s.players.any (fun q => decide (q.2.health ≤ 0)) = true)
    (hwave : ¬(s.enemies.length = 0 ∧ s.waveEnemiesRemaining ≤ 0)) :
    (phaseSystemUpdate s).phase = GamePhase.gameOver := by
  have h0 : ¬(s.phase = GamePhase.waiting ∨ s.phase = GamePhase.gameOver) := by
    rw [hc]
    rintro (h | h) <;> cases h
  have h1 : ¬(s.phase = GamePhase.combat ∧ s.enemies.length = 0 ∧
      s.waveEnemiesRemaining ≤ 0) := fun h => hwave ⟨h.2.1, h.2.2⟩
  have h2 : s.phase = GamePhase.combat ∧
      s.players.any (fun q => decide (q.2.health ≤ 0)) = true := ⟨hc, hdead⟩
  simp only [phaseSystemUpdate, if_neg h0, if_neg h1, if_pos h2]

/-- GAME_OVER is absorbing for PhaseSystem.update. -/
theorem phaseSystemUpdate_game_over_absorbing (s : GameState)
    (hg : s.phase = GamePhase.gameOver) : phaseSystemUpdate s = s := by
  unfold phaseSystemUpdate
  rw [if_pos (Or.inr hg)]

/-- GAME_OVER is absorbing for PhaseSystem.handlePlayerReady. -/
theorem handlePlayerReady_game_over_absorbing (s : GameState) (pid : String)
    (hg : s.phase = GamePhase.gameOver) : handlePlayerReady s pid = s := by
  unfold handlePlayerReady
  cases hl : lookupA pid s.players with
  | none => rfl
  | some p => rw [if_pos (by rw [hg]; exact fun h => by cases h)]

/-- GameRoom.tick clears the loop interval whenever the pipeline leaves the
state in GAME_OVER. -/
theorem gameRoomTickStop_stops (pipeline : GameState → GameState) (s : GameState) (b : Bool)
    (hg : (pipeline s).phase = GamePhase.gameOver) :
    (gameRoomTickStop pipeline s b).2 = false := by
  unfold gameRoomTickStop
  rw [if_pos hg]

/-- PhaseSystem.update never enters COMBAT: only handlePlayerReady does. -/
theorem phaseSystemUpdate_no_combat_entry (s : GameState)
    (hc : (phaseSystemUpdate s).phase = GamePhase.combat) : s.phase = GamePhase.combat := by
  unfold phaseSystemUpdate at hc
  by_cases h0 : s.phase = GamePhase.waiting ∨ s.phase = GamePhase.gameOver
  · rw [if_pos h0] at hc
    exact hc
  · rw [if_neg h0] at hc
    by_cases h1 : s.phase = GamePhase.combat ∧ s.enemies.length = 0 ∧ s.waveEnemiesRemaining ≤ 0
    · exact h1.1
    · rw [if_neg h1] at hc
      by_cases h2 : s.phase = GamePhase.combat ∧ s.players.any (fun q => decide (q.2.health ≤ 0)) = true
      · exact h2.1
      · rw [if_neg h2] at hc
        exact hc

/-- A BUILD-phase ready command that results in COMBAT was sent when every
other player was already ready (the sender's own flag is set first). -/
theorem handlePlayerReady_all_ready (s : GameState) (pid : String)
    (hb : s.phase = GamePhase.build)
    (hc : (handlePlayerReady s pid).phase = GamePhase.combat) :
    ∀ q ∈ s.players, q.1 ≠ pid → q.2.isReady = true := by
  intro q hq hne
  unfold handlePlayerReady at hc
  cases hl : lookupA pid s.players with
  | none =>
    rw [hl] at hc
    rw [hb] at hc
    cases hc
  | some p0 =>
    rw [hl] at hc
    rw [if_neg (by rw [hb]; exact fun h => h rfl)] at hc
    by_cases hall : (updateA pid (fun p => { p with isReady := true }) s.players).all
        (fun q => q.2.isReady) = true
    · have hmem : (q.1, q.2) ∈ updateA pid (fun p => { p with isReady := true }) s.players :=
        mem_updateA_of_ne hq hne _
      have := List.all_eq_true.mp hall _ hmem
      simpa using this
    · rw [if_neg hall] at hc
      rw [hb] at hc
      cases hc

/-- A COMBAT-phase PhaseSystem.update that lands in BUILD went through
transitionToBuild: the wave counter is incremented by one and every player's
ready flag is cleared. -/
theorem phaseSystemUpdate_combat_to_build (s : GameState)
    (hc : s.phase = GamePhase.combat)
    (hb : (phaseSystemUpdate s).phase = GamePhase.build) :
    (phaseSystemUpdate s).waveNumber = s.waveNumber + 1 ∧
    ∀ q ∈ (phaseSystemUpdate s).players, q.2.isReady = false := by
  have h0 : ¬(s.phase = GamePhase.waiting ∨ s.phase = GamePhase.gameOver) := by
    rw [hc]
    exact fun h => by cases h <;> simp_all
  by_cases h1 : s.phase = GamePhase.combat ∧ s.enemies.length = 0 ∧ s.waveEnemiesRemaining ≤ 0
  · have hup : phaseSystemUpdate s =
        if (transitionToBuild s).phase = GamePhase.combat ∧
            (transitionToBuild s).players.any (fun q => decide (q.2.health ≤ 0)) = true
        then { transitionToBuild s with phase := GamePhase.gameOver }
        else transitionToBuild s := by
      unfold phaseSystemUpdate
      rw [if_neg h0, if_pos h1]
    by_cases h2 : (transitionToBuild s).phase = GamePhase.combat ∧
        (transitionToBuild s).players.any (fun q => decide (q.2.health ≤ 0)) = true
    · exfalso
      have : (transitionToBuild s).phase = GamePhase.build := rfl
      rw [this] at h2
      cases h2.1
    · rw [hup, if_neg h2]
      refine ⟨rfl, ?_⟩
      intro q hq
      unfold transitionToBuild at hq
      simp only [List.mem_map] at hq
      obtain ⟨r, _, hr⟩ := hq
      rw [← hr]
  · exfalso
    have hup : phaseSystemUpdate s =
        if s.phase = GamePhase.combat ∧ s.players.any (fun q => decide (q.2.health ≤ 0)) = true
        then { s with phase := GamePhase.gameOver }
        else s := by
      unfold phaseSystemUpdate
      rw [if_neg h0, if_neg h1]
    by_cases h2 : s.phase = GamePhase.combat ∧
        s.players.any (fun q => decide (q.2.health ≤ 0)) = true
    · rw [hup, if_pos h2] at hb
      cases hb
    · rw [hup, if_neg h2] at hb
      rw [hc] at hb
      cases hb

/-- Claim C7, amended (corrected).  During COMBAT, a player's health at or
below zero sends the phase to GAME_OVER on that very tick unless the
wave-end condition (no live enemies and an exhausted spawn counter) holds on
the same tick, in which case the BUILD transition preempts the game-over
check; GAME_OVER, once entered, is absorbing for both the phase update and
the ready command; and GameRoom.tick stops the tick loop whenever the
pipeline ends the tick in GAME_OVER. -/
theorem game_over_entry_and_terminality :
    (∀ s : GameState, s.phase = GamePhase.combat →
      s.players.any (fun q => decide (q.2.health ≤ 0)) = true →
      ¬(s.enemies.length = 0 ∧ s.waveEnemiesRemaining ≤ 0) →
      (phaseSystemUpdate s).phase = GamePhase.gameOver) ∧
    (∀ s : GameState, s.phase = GamePhase.gameOver →
      phaseSystemUpdate s = s ∧ ∀ pid : String, handlePlayerReady s pid = s) ∧
    (∀ (pipeline : GameState → GameState) (s : GameState) (b : Bool),
      (pipeline s).phase = GamePhase.gameOver → (gameRoomTickStop pipeline s b).2 = false) :=
  ⟨phaseSystemUpdate_enters_game_over,
   fun s hg => ⟨phaseSystemUpdate_game_over_absorbing s hg,
     fun pid => handlePlayerReady_game_over_absorbing s pid hg⟩,
   gameRoomTickStop_stops⟩

/-- Witness for C7: a dead player during COMBAT with an enemy still alive
sends the phase to GAME_OVER, and the tick loop is disarmed. -/
theorem game_over_entry_and_terminality_witness :
    fixtureDeadPlayerState.phase = GamePhase.combat ∧
    (fixtureDeadPlayerState.players.any fun q => decide (q.2.health ≤ 0)) = true ∧
    ¬(fixtureDeadPlayerState.enemies.length = 0 ∧
      fixtureDeadPlayerState.waveEnemiesRemaining ≤ 0) ∧
    (phaseSystemUpdate fixtureDeadPlayerState).phase = GamePhase.gameOver ∧
    (gameRoomTickStop phaseSystemUpdate fixtureDeadPlayerState true).2 = false := by
  have h1 : (fixtureDeadPlayerState.players.any fun q => decide (q.2.health ≤ 0)) = true := by
    decide
  have h2 : ¬(fixtureDeadPlayerState.enemies.length = 0 ∧
      fixtureDeadPlayerState.waveEnemiesRemaining ≤ 0) := by decide
  have h3 := game_over_entry_and_terminality.1 fixtureDeadPlayerState rfl h1 h2
  exact ⟨rfl, h1, h2, h3,
    game_over_entry_and_terminality.2.2 phaseSystemUpdate fixtureDeadPlayerState true h3⟩

/-- Counterexample for C7 as stated: with a dead player on the very tick the
wave ends (no enemies, empty queue), PhaseSystem.update transitions to BUILD
and skips the game-over check, so the phase does not become GAME_OVER. -/
theorem game_over_preempted_by_wave_end_cex :
    fixtureRaceState.phase = GamePhase.combat ∧
    (fixtureRaceState.players.any fun q => decide (q.2.health ≤ 0)) = true ∧
    (phaseSystemUpdate fixtureRaceState).phase = GamePhase.build ∧
    (phaseSystemUpdate fixtureRaceState).phase ≠ GamePhase.gameOver := by
  refine ⟨rfl, by decide, by rfl, ?_⟩
  intro h
  rw [show (phaseSystemUpdate fixtureRaceState).phase = GamePhase.build from by rfl] at h
  cases h

/-- Claim C9 (confirmed).  The phase never moves BUILD to COMBAT while some
present player's ready flag is still false: the phase update itself never
enters COMBAT, and the ready command only transitions after setting the
sender's flag when every other player was already ready.  Every COMBAT to
BUILD transition increments the wave number by exactly one and clears every
player's ready flag. -/
theorem ready_gating_and_build_transition :
    (∀ (s : GameState) (pid : String), s.phase = GamePhase.build →
      (handlePlayerReady s pid).phase = GamePhase.combat →
      ∀ q ∈ s.players, q.1 ≠ pid → q.2.isReady = true) ∧
    (∀ s : GameState,
      (phaseSystemUpdate s).phase = GamePhase.combat → s.phase = GamePhase.combat) ∧
    (∀ s : GameState, s.phase = GamePhase.combat →
      (phaseSystemUpdate s).phase = GamePhase.build →
      (phaseSystemUpdate s).waveNumber = s.waveNumber + 1 ∧
      ∀ q ∈ (phaseSystemUpdate s).players, q.2.isReady = false) :=
  ⟨handlePlayerReady_all_ready, phaseSystemUpdate_no_combat_entry,
   phaseSystemUpdate_combat_to_build⟩

/-- Witness for C9: in a two-player BUILD state where only the right player
is ready, the left player's ready command reaches COMBAT and the other
player was indeed already ready; and the wave-end BUILD transition bumps the
wave number from 0 to 1. -/
theorem ready_gating_and_build_transition_witness :
    fixtureTwoPlayerState.phase = GamePhase.build ∧
    (handlePlayerReady fixtureTwoPlayerState "p1").phase = GamePhase.combat ∧
    readyPlayer.isReady = true ∧
    fixtureRaceState.phase = GamePhase.combat ∧
    (phaseSystemUpdate fixtureRaceState).phase = GamePhase.build ∧
    (phaseSystemUpdate fixtureRaceState).waveNumber = fixtureRaceState.waveNumber + 1 := by
  have hc : (handlePlayerReady fixtureTwoPlayerState "p1").phase = GamePhase.combat := by rfl
  have hb : (phaseSystemUpdate fixtureRaceState).phase = GamePhase.build := by rfl
  exact ⟨rfl, hc,
    ready_gating_and_build_transition.1 fixtureTwoPlayerState "p1" rfl hc
      ("p2", readyPlayer) (by decide) (by decide),
    rfl, hb,
    (ready_gating_and_build_transition.2.2 fixtureRaceState rfl hb).1⟩

/-! Claim C3: length and structure of the wave spawn queue. -/

theorem swapAt_length {α : Type} (l : List α) (i j : Nat) : (swapAt l i j).length = l.length := by
  unfold swapAt
  cases hi : l.get? i with
  | none => rfl
  | some a =>
    cases hj : l.get? j with
    | none => rfl
    | some b => simp

/-- The Fisher-Yates shuffle never changes the queue length, whatever the
random draws are. -/
theorem fisherYates_length {α : Type} (js : Nat → Nat) (l : List α) :
    (fisherYates js l).length = l.length := by
  unfold fisherYates
  generalize (List.range' 1 (l.length - 1)).reverse = idxs
  induction idxs generalizing l with
  | nil => rfl
  | cons i rest ih =>
    simp only [List.foldl_cons]
    rw [ih (swapAt l i (js i))]
    exact swapAt_length l i (js i)

/-- The built queue holds exactly one entry per counted enemy of the wave
definition, in both session modes. -/
theorem startWaveQueue_length (s : GameState) :
    (startWaveQueue s).length = waveCountSum (getWaveDefinition s.waveNumber s.settings) := by
  unfold startWaveQueue waveCountSum
  rw [List.length_flatMap]
  congr 1
  apply List.map_congr_left
  intro e _
  cases hs : (if s.gameMode = GameMode.single then
      some ((s.players.head?.map fun q => q.2.side).getD PlayerSide.left) else none) <;>
    simp

theorem startWaveQueue_sides_multi (s : GameState) (hm : s.gameMode = GameMode.multi) :
    ∀ q ∈ startWaveQueue s, q.side = SpawnSide.both := by
  intro q hq
  unfold startWaveQueue at hq
  rw [List.mem_flatMap] at hq
  obtain ⟨e, _, hq⟩ := hq
  rw [List.mem_map] at hq
  obtain ⟨i, _, hq⟩ := hq
  have hnone : (if s.gameMode = GameMode.single then
      some ((s.players.head?.map fun q => q.2.side).getD PlayerSide.left) else none) = none := by
    rw [hm]
    rfl
  rw [hnone] at hq
  rw [← hq]

theorem startWaveQueue_sides_single (s : GameState) (hm : s.gameMode = GameMode.single) :
    ∀ q ∈ startWaveQueue s, q.side ≠ SpawnSide.both := by
  intro q hq
  unfold startWaveQueue at hq
  rw [List.mem_flatMap] at hq
  obtain ⟨e, _, hq⟩ := hq
  rw [List.mem_map] at hq
  obtain ⟨i, _, hq⟩ := hq
  rw [hm] at hq
  simp only [if_pos rfl] at hq
  rw [← hq]
  cases (s.players.head?.map fun q => q.2.side).getD PlayerSide.left <;> simp [toSpawnSide]

/-- Claim C3, amended (corrected).  The spawn queue WaveDirector builds on
COMBAT entry has length equal to the sum of the per-type spawn counts of the
wave definition in BOTH session modes — it is not doubled under versus; a
versus queue instead marks every entry BOTH so that one enemy per side is
spawned when the entry is dequeued, while a solo queue targets the present
player's side in every entry. -/
theorem wave_queue_structure (s : GameState) (js : Nat → Nat) :
    (fisherYates js (startWaveQueue s)).length =
      waveCountSum (getWaveDefinition s.waveNumber s.settings) ∧
    (s.gameMode = GameMode.multi → ∀ q ∈ startWaveQueue s, q.side = SpawnSide.both) ∧
    (s.gameMode = GameMode.single → ∀ q ∈ startWaveQueue s, q.side ≠ SpawnSide.both) :=
  ⟨by rw [fisherYates_length, startWaveQueue_length],
   startWaveQueue_sides_multi s, startWaveQueue_sides_single s⟩

/-- Witness for C3: on the versus wave-1 fixture the wave definition counts
60 enemies and the shuffled queue holds exactly 60 entries. -/
theorem wave_queue_structure_witness :
    fixtureWaveState.gameMode = GameMode.multi ∧
    waveCountSum (getWaveDefinition fixtureWaveState.waveNumber fixtureWaveState.settings) = 60 ∧
    (fisherYates (fun _ => 0) (startWaveQueue fixtureWaveState)).length = 60 := by
  have hsum : waveCountSum
      (getWaveDefinition fixtureWaveState.waveNumber fixtureWaveState.settings) = 60 := by
    norm_num [waveCountSum, getWaveDefinition, getDifficultyMultiplier, fixtureWaveState,
      fixtureStateBase, fixtureSettings, onesCurve, jsRound]
    decide
  exact ⟨rfl, hsum,
    by rw [(wave_queue_structure fixtureWaveState (fun _ => 0)).1, hsum]⟩

/-- Counterexample for C3 as stated: in the versus wave-1 fixture the queue
length equals the 60-enemy count sum itself, not twice it. -/
theorem versus_queue_length_not_doubled_cex :
    fixtureWaveState.gameMode = GameMode.multi ∧
    (fisherYates (fun _ => 0) (startWaveQueue fixtureWaveState)).length ≠
      2 * waveCountSum (getWaveDefinition fixtureWaveState.waveNumber fixtureWaveState.settings) := by
  have hsum : waveCountSum
      (getWaveDefinition fixtureWaveState.waveNumber fixtureWaveState.settings) = 60 := by
    norm_num [waveCountSum, getWaveDefinition, getDifficultyMultiplier, fixtureWaveState,
      fixtureStateBase, fixtureSettings, onesCurve, jsRound]
    decide
  have hlen : (fisherYates (fun _ => 0) (startWaveQueue fixtureWaveState)).length = 60 := by
    rw [fisherYates_length, startWaveQueue_length, hsum]
  refine ⟨rfl, ?_⟩
  rw [hlen, hsum]
  decide

/-! Claim C8: the placement validator's speculative path probe. -/

/-- wouldBlockPath writes the saved previous value back after the probe, so
the grid it leaves behind is cell-for-cell the input grid. -/
theorem wouldBlockPath_restores (g : GridState) (x y : Nat) :
    ∀ y2 x2, ((wouldBlockPath g x y).2).cells y2 x2 = g.cells y2 x2 := by
  intro y2 x2
  unfold wouldBlockPath setCell
  by_cases h : y2 = y ∧ x2 = x
  · obtain ⟨h1, h2⟩ := h
    subst h1
    subst h2
    simp
  · simp [h]

/-- Once the cheap checks pass, the validator rejects with would-block-path
exactly when the speculatively occupied grid loses the LEFT or the RIGHT
route. -/
theorem validate_wouldBlock_iff (g : GridState) (x y : Int) (side : PlayerSide)
    (hb : ¬(x < 0 ∨ (GRID_WIDTH : Int) ≤ x ∨ y < 0 ∨ (GRID_HEIGHT : Int) ≤ y))
    (he : g.cells y.toNat x.toNat = CellType.empty)
    (hs : isInSpawnZone x.toNat y.toNat = false)
    (hzl : ¬(side = PlayerSide.left ∧ (LEFT_ZONE_END : Int) < x))
    (hzr : ¬(side = PlayerSide.right ∧ x < (RIGHT_ZONE_START : Int))) :
    validateTowerPlacement g x y side = some PlacementError.wouldBlock ↔
      (findPath (setCell g y.toNat x.toNat CellType.tower) PlayerSide.left = none ∨
       findPath (setCell g y.toNat x.toNat CellType.tower) PlayerSide.right = none) := by
  have hwiff : ((wouldBlockPath g x.toNat y.toNat).1 = true) ↔
      (findPath (setCell g y.toNat x.toNat CellType.tower) PlayerSide.left = none ∨
       findPath (setCell g y.toNat x.toNat CellType.tower) PlayerSide.right = none) := by
    unfold wouldBlockPath
    simp [Option.isNone_iff_eq_none]
  have hval : validateTowerPlacement g x y side =
      if (wouldBlockPath g x.toNat y.toNat).1 then some PlacementError.wouldBlock else none := by
    unfold validateTowerPlacement
    rw [if_neg hb, if_neg (by rw [he]; exact fun hh => hh rfl),
      if_neg (by simp [hs]), if_neg hzl, if_neg hzr]
  rw [hval]
  constructor
  · intro hv
    by_cases hw : (wouldBlockPath g x.toNat y.toNat).1 = true
    · exact hwiff.mp hw
    · rw [if_neg (by simpa using hw)] at hv
      cases hv
  · intro hd
    rw [if_pos (hwiff.mpr hd)]

/-- Claim C8, amended (corrected).  For an in-bounds, empty candidate cell
that also lies outside the spawn zone and inside the requesting side's build
zone, validateTowerPlacement returns would-block-path exactly when marking
the cell occupied makes findPath fail for the left side, the right side, or
both; and the speculative probe always hands back every grid cell with the
occupancy it held before, whatever the outcome.  (Without the spawn-zone and
build-zone conditions the equivalence fails: those earlier checks preempt
the probe; see the counterexample.) -/
theorem validate_block_iff_and_grid_restored (g : GridState) (x y : Int) (side : PlayerSide)
    (hb : ¬(x < 0 ∨ (GRID_WIDTH : Int) ≤ x ∨ y < 0 ∨ (GRID_HEIGHT : Int) ≤ y))
    (he : g.cells y.toNat x.toNat = CellType.empty)
    (hs : isInSpawnZone x.toNat y.toNat = false)
    (hzl : ¬(side = PlayerSide.left ∧ (LEFT_ZONE_END : Int) < x))
    (hzr : ¬(side = PlayerSide.right ∧ x < (RIGHT_ZONE_START : Int))) :
    (validateTowerPlacement g x y side = some PlacementError.wouldBlock ↔
      (findPath (setCell g y.toNat x.toNat CellType.tower) PlayerSide.left = none ∨
       findPath (setCell g y.toNat x.toNat CellType.tower) PlayerSide.right = none)) ∧
    (∀ y2 x2, ((wouldBlockPath g x.toNat y.toNat).2).cells y2 x2 = g.cells y2 x2) :=
  ⟨validate_wouldBlock_iff g x y side hb he hs hzl hzr,
   wouldBlockPath_restores g x.toNat y.toNat⟩

/-- Witness for C8: cell (5, 5) of the empty grid satisfies every cheap
check for the LEFT player, the equivalence holds there, and the probe hands
back cell (3, 4) unchanged. -/
theorem validate_block_iff_and_grid_restored_witness :
    emptyGrid.cells 5 5 = CellType.empty ∧
    isInSpawnZone 5 5 = false ∧
    (validateTowerPlacement emptyGrid 5 5 PlayerSide.left = some PlacementError.wouldBlock ↔
      (findPath (setCell emptyGrid 5 5 CellType.tower) PlayerSide.left = none ∨
       findPath (setCell emptyGrid 5 5 CellType.tower) PlayerSide.right = none)) ∧
    ((wouldBlockPath emptyGrid 5 5).2).cells 3 4 = emptyGrid.cells 3 4 := by
  have h := validate_block_iff_and_grid_restored emptyGrid 5 5 PlayerSide.left
    (by decide) (by rfl) (by decide) (by decide) (by decide)
  exact ⟨rfl, by decide, h.1, h.2 3 4⟩

/-- Counterexample for C8 as stated: the empty spawn-block cell (29, 14) of
spawnBlockGrid is in bounds and its occupation blocks both sides (it removes
the last BFS seed), yet the validator rejects it with the spawn-zone reason,
not would-block-path — the iff fails without the earlier-check conditions. -/
theorem validate_earlier_check_preempts_block_cex :
    spawnBlockGrid.cells 14 29 = CellType.empty ∧
    (wouldBlockPath spawnBlockGrid 29 14).1 = true ∧
    findPath (setCell spawnBlockGrid 14 29 CellType.tower) PlayerSide.left = none ∧
    validateTowerPlacement spawnBlockGrid 29 14 PlayerSide.left =
      some PlacementError.spawnZone ∧
    validateTowerPlacement spawnBlockGrid 29 14 PlayerSide.left ≠
      some PlacementError.wouldBlock := by
  refine ⟨rfl, by rfl, by rfl, by rfl, ?_⟩
  intro h
  rw [show validateTowerPlacement spawnBlockGrid 29 14 PlayerSide.left =
      some PlacementError.spawnZone from by rfl] at h
  cases h

/-! Claim C5: routes stay on the requested side of the board. -/

theorem keyX_cellKey (x y : Nat) (h : x < GRID_WIDTH) : keyX (cellKey x y) = x := by
  simp only [keyX, cellKey, GRID_WIDTH] at h ⊢
  omega

theorem cellKey_keyX_keyY (k : Nat) : cellKey (keyX k) (keyY k) = k := by
  simp only [keyX, keyY, cellKey, GRID_WIDTH]
  omega

/-- Every BFS seed key lies in the shared spawn columns, hence within both
sides' bounds. -/
theorem spawnSeeds_ok (g : GridState) (side : PlayerSide) :
    ∀ k ∈ spawnSeeds g, sideKeyOk side k := by
  intro k hk
  unfold spawnSeeds at hk
  rw [List.mem_flatMap] at hk
  obtain ⟨row, _, hk⟩ := hk
  rw [List.mem_filterMap] at hk
  obtain ⟨x, hx, hk⟩ := hk
  have hrange : List.range' SPAWN_X_MIN (SPAWN_X_MAX + 1 - SPAWN_X_MIN) = [29, 30] := rfl
  rw [hrange] at hx
  have hx2 : x = 29 ∨ x = 30 := by simpa using hx
  by_cases hc : g.cells row x ≠ CellType.tower
  · rw [if_pos hc] at hk
    injection hk with hk
    subst hk
    have hxlt : x < GRID_WIDTH := by
      simp only [GRID_WIDTH]
      omega
    constructor <;> intro _ <;> rw [keyX_cellKey x row hxlt] <;>
      simp only [SPAWN_X_MAX, SPAWN_X_MIN] <;> omega
  · rw [if_neg hc] at hk
    cases hk

/-- The neighbor-exploration pass only pushes keys that satisfy the side
bound, and only records parent pairs between side-bounded keys. -/
theorem exploreDirs_ok (g : GridState) (side : PlayerSide) (x y : Nat)
    (acc : List Nat × List Nat × List (Nat × Nat))
    (hq : ∀ k ∈ acc.1, sideKeyOk side k)
    (hp : ∀ p ∈ acc.2.2, sideKeyOk side p.1 ∧ sideKeyOk side p.2)
    (hkey : sideKeyOk side (cellKey x y)) :
    (∀ k ∈ (exploreDirs g side x y acc).1, sideKeyOk side k) ∧
    (∀ p ∈ (exploreDirs g side x y acc).2.2, sideKeyOk side p.1 ∧ sideKeyOk side p.2) := by
  unfold exploreDirs
  generalize sideDirs side = dirs
  induction dirs generalizing acc with
  | nil => exact ⟨hq, hp⟩
  | cons d rest ih =>
    rw [List.foldl_cons]
    apply ih
    all_goals {
      dsimp only
      by_cases h1 : ((x : Int) + d.1 < 0 ∨ (GRID_WIDTH : Int) ≤ (x : Int) + d.1 ∨
          (y : Int) + d.2 < 0 ∨ (GRID_HEIGHT : Int) ≤ (y : Int) + d.2)
      · rw [if_pos h1]
        first
          | exact hq
          | exact hp
      · rw [if_neg h1]
        by_cases h2 : (side = PlayerSide.left ∧ (SPAWN_X_MAX : Int) < (x : Int) + d.1)
        · rw [if_pos h2]
          first
            | exact hq
            | exact hp
        · rw [if_neg h2]
          by_cases h3 : (side = PlayerSide.right ∧ (x : Int) + d.1 < (SPAWN_X_MIN : Int))
          · rw [if_pos h3]
            first
              | exact hq
              | exact hp
          · rw [if_neg h3]
            by_cases h4 : cellKey ((x : Int) + d.1).toNat ((y : Int) + d.2).toNat ∈ acc.2.1
            · rw [if_pos h4]
              first
                | exact hq
                | exact hp
            · rw [if_neg h4]
              by_cases h5 : g.cells ((y : Int) + d.2).toNat ((x : Int) + d.1).toNat = CellType.tower
              · rw [if_pos h5]
                first
                  | exact hq
                  | exact hp
              · rw [if_neg h5]
                have hnk : sideKeyOk side (cellKey ((x : Int) + d.1).toNat ((y : Int) + d.2).toNat) := by
                  simp only [GRID_WIDTH, GRID_HEIGHT] at h1
                  have hxlt : ((x : Int) + d.1).toNat < GRID_WIDTH := by
                    simp only [GRID_WIDTH]
                    omega
                  constructor
                  · intro hside
                    rw [keyX_cellKey _ _ hxlt]
                    have hle : (x : Int) + d.1 ≤ (SPAWN_X_MAX : Int) := by
                      by_contra hgt
                      exact h2 ⟨hside, by omega⟩
                    simp only [SPAWN_X_MAX] at hle ⊢
                    omega
                  · intro hside
                    rw [keyX_cellKey _ _ hxlt]
                    have hge : (SPAWN_X_MIN : Int) ≤ (x : Int) + d.1 := by
                      by_contra hlt
                      exact h3 ⟨hside, by omega⟩
                    simp only [SPAWN_X_MIN] at hge ⊢
                    omega
                first
                  | { intro k hk
                      rcases List.mem_append.mp hk with hmem | hmem
                      · exact hq k hmem
                      · rw [List.mem_singleton.mp hmem]
                        exact hnk }
                  | { intro p hpmem
                      rcases List.mem_cons.mp hpmem with hmem | hmem
                      · rw [hmem]
                        exact ⟨hnk, hkey⟩
                      · exact hp p hmem }
    }

/-- The BFS loop only returns side-bounded goal keys and parent maps. -/
theorem bfsLoop_ok (g : GridState) (side : PlayerSide) :
    ∀ (fuel : Nat) (queue visited : List Nat) (parent : List (Nat × Nat))
      (goalKey : Nat) (parentOut : List (Nat × Nat)),
    (∀ k ∈ queue, sideKeyOk side k) →
    (∀ p ∈ parent, sideKeyOk side p.1 ∧ sideKeyOk side p.2) →
    bfsLoop g side fuel queue visited parent = some (goalKey, parentOut) →
    sideKeyOk side goalKey ∧
      ∀ p ∈ parentOut, sideKeyOk side p.1 ∧ sideKeyOk side p.2 := by
  intro fuel
  induction fuel with
  | zero =>
    intro queue visited parent gk po _ _ h
    cases h
  | succ f ih =>
    intro queue visited parent gk po hq hp hrun
    cases queue with
    | nil => cases hrun
    | cons key rest =>
      unfold bfsLoop at hrun
      by_cases hgoal : keyX key = goalX side ∧ keyY key ∈ GOAL_ROWS
      · rw [if_pos hgoal] at hrun
        injection hrun with hpair
        rw [Prod.mk.injEq] at hpair
        obtain ⟨h1, h2⟩ := hpair
        subst h1
        subst h2
        exact ⟨hq key (List.mem_cons_self key rest), hp⟩
      · rw [if_neg hgoal] at hrun
        have hkey : sideKeyOk side (cellKey (keyX key) (keyY key)) := by
          rw [cellKey_keyX_keyY]
          exact hq key (List.mem_cons_self key rest)
        have hstep := exploreDirs_ok g side (keyX key) (keyY key) ([], visited, parent)
          (by intro k hk; cases hk) hp hkey
        apply ih _ _ _ _ _ ?_ hstep.2 hrun
        intro k hk
        rcases List.mem_append.mp hk with hmem | hmem
        · exact hq k (List.mem_cons_of_mem key hmem)
        · exact hstep.1 k hmem

/-- Path reconstruction only emits cells whose keys appear in the (goal key,
parent map) pair, so the side bound carries over to every route cell. -/
theorem rebuildPath_ok (side : PlayerSide) :
    ∀ (fuel cur : Nat) (parent : List (Nat × Nat)) (acc : List Cell),
    sideKeyOk side cur →
    (∀ p ∈ parent, sideKeyOk side p.1 ∧ sideKeyOk side p.2) →
    (∀ c ∈ acc, (side = PlayerSide.left → c.x ≤ SPAWN_X_MAX) ∧
      (side = PlayerSide.right → SPAWN_X_MIN ≤ c.x)) →
    ∀ c ∈ rebuildPath fuel cur parent acc,
      (side = PlayerSide.left → c.x ≤ SPAWN_X_MAX) ∧
      (side = PlayerSide.right → SPAWN_X_MIN ≤ c.x) := by
  intro fuel
  induction fuel with
  | zero =>
    intro cur parent acc _ _ hacc c hc
    exact hacc c hc
  | succ f ih =>
    intro cur parent acc hcur hpar hacc c hc
    unfold rebuildPath at hc
    cases hl : lookupA cur parent with
    | none =>
      rw [hl] at hc
      rcases List.mem_cons.mp hc with h | h
      · rw [h]
        exact ⟨fun hs => hcur.1 hs, fun hs => hcur.2 hs⟩
      · exact hacc c h
    | some p =>
      rw [hl] at hc
      refine ih p parent (keyCell cur :: acc) ?_ hpar ?_ c hc
      · exact (hpar (cur, p) (lookupA_mem hl)).2
      · intro c2 hc2
        rcases List.mem_cons.mp hc2 with h | h
        · rw [h]
          exact ⟨fun hs => hcur.1 hs, fun hs => hcur.2 hs⟩
        · exact hacc c2 h

/-- Claim C5, amended (corrected).  Every cell of a route returned by
findPath stays within the requested side's reach: a LEFT route never
contains a cell with x beyond SPAWN_X_MAX (30, the right column of the
shared spawn block) and a RIGHT route never contains one with x below
SPAWN_X_MIN (29).  The route may therefore use the two shared spawn columns
— including cells of those columns outside the spawn rows — but never a
cell beyond them.  (The claim's stricter bound at the build-zone half-line,
LEFT_ZONE_END = 29 for LEFT, fails: see the counterexample.) -/
theorem findPath_stays_on_side (g : GridState) (side : PlayerSide) (p : List Cell)
    (hp : findPath g side = some p) :
    ∀ c ∈ p, (side = PlayerSide.left → c.x ≤ SPAWN_X_MAX) ∧
      (side = PlayerSide.right → SPAWN_X_MIN ≤ c.x) := by
  unfold findPath at hp
  cases hb : bfsLoop g side BFS_FUEL (spawnSeeds g) (spawnSeeds g) [] with
  | none =>
    rw [hb] at hp
    cases hp
  | some pr =>
    obtain ⟨goalKey, parentOut⟩ := pr
    rw [hb] at hp
    injection hp with hp
    obtain ⟨hgk, hpar⟩ := bfsLoop_ok g side BFS_FUEL (spawnSeeds g) (spawnSeeds g) []
      goalKey parentOut (spawnSeeds_ok g side) (by intro p hpm; cases hpm) hb
    rw [← hp]
    exact rebuildPath_ok side BFS_FUEL goalKey parentOut [] hgk hpar
      (by intro c hc; cases hc)

/-- Witness for C5: the corridor grid's LEFT route exists and passes through
(30, 14), which satisfies the amended bound x at most SPAWN_X_MAX. -/
theorem findPath_stays_on_side_witness :
    (⟨30, 14⟩ : Cell) ∈ (findPath corridorGrid PlayerSide.left).getD [] ∧
    (PlayerSide.left = PlayerSide.left → (30 : Nat) ≤ SPAWN_X_MAX) ∧
    (PlayerSide.left = PlayerSide.right → SPAWN_X_MIN ≤ (30 : Nat)) :=
  ⟨by decide,
   findPath_stays_on_side corridorGrid PlayerSide.left
     ((findPath corridorGrid PlayerSide.left).getD []) (by rfl) ⟨30, 14⟩ (by decide)⟩

/-- Counterexample for C5 as stated: on the corridor grid the LEFT route
contains the cell (30, 13), which lies outside the shared spawn block and on
the right half of the board (x greater than LEFT_ZONE_END = 29). -/
theorem findPath_crosses_half_cex :
    ¬(∀ p, findPath corridorGrid PlayerSide.left = some p →
        ∀ c ∈ p, c.x ≤ LEFT_ZONE_END) := by
  intro h
  exact absurd
    (h ((findPath corridorGrid PlayerSide.left).getD []) (by rfl) ⟨30, 13⟩ (by decide))
    (by decide)

/-! Claims C4 and C6: the per-tick enemy iteration.  The central invariant
threads, for one tracked tower, the contact damage accumulated so far (D)
through every fold of EnemySystem.update: the tower's current health is its
original health minus D, and it is on the removal list exactly when it has
been hit at least once and its running health is at or below zero. -/

theorem lookupA_cons_self {κ ν : Type} [DecidableEq κ] (k : κ) (v : ν) (l : List (κ × ν)) :
    lookupA k ((k, v) :: l) = some v := by
  simp [lookupA]

theorem lookupA_cons_ne {κ ν : Type} [DecidableEq κ] {a k : κ} (h : a ≠ k) (v : ν)
    (l : List (κ × ν)) : lookupA k ((a, v) :: l) = lookupA k l := by
  simp [lookupA, h]

theorem damageTowersAt_keys (cd : ℚ) (ax ay : Int) :
    ∀ (tw : List (String × Tower)) (rm : List String),
    keysA (damageTowersAt tw rm cd ax ay).1 = keysA tw := by
  intro tw
  induction tw with
  | nil => intro rm; rfl
  | cons q rest ih =>
    intro rm
    obtain ⟨a, u⟩ := q
    have ih2 : ∀ rm2, List.map Prod.fst (damageTowersAt rest rm2 cd ax ay).1 =
        List.map Prod.fst rest := fun rm2 => by simpa [keysA] using ih rm2
    by_cases hhit : (u.position.x : Int) = ax ∧ (u.position.y : Int) = ay
    · simp [damageTowersAt, hhit, keysA, ih2]
    · simp [damageTowersAt, hhit, keysA, ih2]

theorem damageTowersAt_rm_notin (cd : ℚ) (ax ay : Int) :
    ∀ (tw : List (String × Tower)) (rm : List String) (tid : String),
    tid ∉ keysA tw →
    (tid ∈ (damageTowersAt tw rm cd ax ay).2 ↔ tid ∈ rm) := by
  intro tw
  induction tw with
  | nil => intro rm tid _; rfl
  | cons q rest ih =>
    intro rm tid hnin
    obtain ⟨a, u⟩ := q
    have hne : tid ≠ a := by
      intro hcontra
      exact hnin (by simp [keysA, hcontra])
    have hnin2 : tid ∉ keysA rest := by
      intro hc
      apply hnin
      simp only [keysA, List.map_cons]
      exact List.mem_cons_of_mem _ (by simpa [keysA] using hc)
    by_cases hhit : (u.position.x : Int) = ax ∧ (u.position.y : Int) = ay
    · by_cases hpush : ({ u with health := u.health - cd } : Tower).health ≤ 0 ∧ a ∉ rm
      · simp only [damageTowersAt, if_pos hhit, if_pos hpush]
        rw [ih (rm ++ [a]) tid hnin2]
        simp [hne]
      · simp only [damageTowersAt, if_pos hhit, if_neg hpush]
        exact ih rm tid hnin2
    · simp only [damageTowersAt, if_neg hhit]
      exact ih rm tid hnin2

/-- One-cell damage application, tracked tower view: health drops by cd when
the tower stands on the damaged cell, and removal-list membership keeps
meaning "hit at least once and running health at or below zero". -/
theorem damageTowersAt_inv (cd : ℚ) (ax ay : Int) :
    ∀ (tw : List (String × Tower)) (rm : List String) (tid : String) (t : Tower) (D : ℚ),
    0 < cd → 0 ≤ D → (keysA tw).Nodup →
    lookupA tid tw = some { t with health := t.health - D } →
    (tid ∈ rm ↔ 0 < D ∧ t.health - D ≤ 0) →
    (lookupA tid (damageTowersAt tw rm cd ax ay).1 =
      some { t with health := t.health -
        (D + if (t.position.x : Int) = ax ∧ (t.position.y : Int) = ay then cd else 0) }) ∧
    (tid ∈ (damageTowersAt tw rm cd ax ay).2 ↔
      0 < (D + if (t.position.x : Int) = ax ∧ (t.position.y : Int) = ay then cd else 0) ∧
      t.health -
        (D + if (t.position.x : Int) = ax ∧ (t.position.y : Int) = ay then cd else 0) ≤ 0) := by
  intro tw
  induction tw with
  | nil =>
    intro rm tid t D _ _ _ hl _
    cases hl
  | cons q rest ih =>
    intro rm tid t D hcd hD hnodup hl hrm
    obtain ⟨a, u⟩ := q
    have hnodup2 : (keysA rest).Nodup := (List.nodup_cons.mp hnodup).2
    have hanin : a ∉ keysA rest := (List.nodup_cons.mp hnodup).1
    by_cases hatid : a = tid
    · subst hatid
      have hu : u = { t with health := t.health - D } := by
        rw [lookupA_cons_self] at hl
        exact Option.some.inj hl
      subst hu
      by_cases hhit : (t.position.x : Int) = ax ∧ (t.position.y : Int) = ay
      · -- the tracked tower is hit by this cell
        have hbranch : damageTowersAt ((a, { t with health := t.health - D }) :: rest) rm cd ax ay =
            ((a, { t with health := t.health - (D + cd) }) ::
              (damageTowersAt rest
                (if t.health - (D + cd) ≤ 0 ∧ a ∉ rm then rm ++ [a] else rm) cd ax ay).1,
             (damageTowersAt rest
                (if t.health - (D + cd) ≤ 0 ∧ a ∉ rm then rm ++ [a] else rm) cd ax ay).2) := by
          simp only [damageTowersAt]
          dsimp only
          rw [if_pos hhit, sub_sub]
        rw [hbranch, if_pos hhit]
        constructor
        · rw [lookupA_cons_self]
        · rw [damageTowersAt_rm_notin cd ax ay rest _ a hanin]
          by_cases hdead : t.health - (D + cd) ≤ 0
          · constructor
            · intro _
              exact ⟨by linarith, hdead⟩
            · intro _
              by_cases hin : a ∈ rm
              · rw [if_neg (fun hc => hc.2 hin)]
                exact hin
              · rw [if_pos ⟨hdead, hin⟩]
                simp
          · constructor
            · intro hmem
              rw [if_neg (fun hc => hdead hc.1)] at hmem
              obtain ⟨h1, h2⟩ := hrm.mp hmem
              exact absurd (by linarith : t.health - (D + cd) ≤ 0) hdead
            · intro hnew
              exact absurd hnew.2 hdead
      · -- this cell misses the tracked tower
        have hbranch : damageTowersAt ((a, { t with health := t.health - D }) :: rest) rm cd ax ay =
            ((a, { t with health := t.health - D }) ::
              (damageTowersAt rest rm cd ax ay).1,
             (damageTowersAt rest rm cd ax ay).2) := by
          simp only [damageTowersAt]
          dsimp only
          rw [if_neg hhit]
        rw [hbranch, if_neg hhit, add_zero]
        constructor
        · rw [lookupA_cons_self]
        · rw [damageTowersAt_rm_notin cd ax ay rest rm a hanin]
          exact hrm
    · -- a different tower heads the list; recurse
      have hl2 : lookupA tid rest = some { t with health := t.health - D } := by
        rw [lookupA_cons_ne hatid] at hl
        exact hl
      by_cases hhit : (u.position.x : Int) = ax ∧ (u.position.y : Int) = ay
      · by_cases hpush : ({ u with health := u.health - cd } : Tower).health ≤ 0 ∧ a ∉ rm
        · have hrm2 : tid ∈ rm ++ [a] ↔ 0 < D ∧ t.health - D ≤ 0 := by
            rw [List.mem_append, List.mem_singleton]
            constructor
            · rintro (h | h)
              · exact hrm.mp h
              · exact absurd h.symm hatid
            · exact fun h => Or.inl (hrm.mpr h)
          have hrec := ih (rm ++ [a]) tid t D hcd hD hnodup2 hl2 hrm2
          simp only [damageTowersAt, if_pos hhit, if_pos hpush]
          exact ⟨by rw [lookupA_cons_ne hatid]; exact hrec.1, hrec.2⟩
        · have hrec := ih rm tid t D hcd hD hnodup2 hl2 hrm
          simp only [damageTowersAt, if_pos hhit, if_neg hpush]
          exact ⟨by rw [lookupA_cons_ne hatid]; exact hrec.1, hrec.2⟩
      · have hrec := ih rm tid t D hcd hD hnodup2 hl2 hrm
        simp only [damageTowersAt, if_neg hhit]
        exact ⟨by rw [lookupA_cons_ne hatid]; exact hrec.1, hrec.2⟩

/-- The full four-direction contact pass of one enemy, tracked tower view:
the accumulated damage grows by cd for every direction whose neighbor cell
is in bounds and holds the tracked tower. -/
theorem contactDirFold_inv (cd : ℚ) (ex ey : Int) (dirs : List (Int × Int)) :
    ∀ (tw : List (String × Tower)) (rm : List String) (tid : String) (t : Tower) (D : ℚ),
    0 < cd → 0 ≤ D → (keysA tw).Nodup →
    lookupA tid tw = some { t with health := t.health - D } →
    (tid ∈ rm ↔ 0 < D ∧ t.health - D ≤ 0) →
    (lookupA tid (dirs.foldl (contactDirStep cd ex ey) (tw, rm)).1 =
      some { t with health := t.health -
        (D + cd * (dirs.countP (dirHits ex ey t.position) : ℚ)) }) ∧
    (tid ∈ (dirs.foldl (contactDirStep cd ex ey) (tw, rm)).2 ↔
      0 < D + cd * (dirs.countP (dirHits ex ey t.position) : ℚ) ∧
      t.health - (D + cd * (dirs.countP (dirHits ex ey t.position) : ℚ)) ≤ 0) ∧
    keysA (dirs.foldl (contactDirStep cd ex ey) (tw, rm)).1 = keysA tw := by
  induction dirs with
  | nil =>
    intro tw rm tid t D hcd hD hnodup hl hrm
    simp only [List.foldl_nil, List.countP_nil, Nat.cast_zero, mul_zero, add_zero]
    exact ⟨hl, hrm, trivial⟩
  | cons d rest ih =>
    intro tw rm tid t D hcd hD hnodup hl hrm
    rw [List.foldl_cons]
    by_cases hoob : (ex + d.1 < 0 ∨ (GRID_WIDTH : Int) ≤ ex + d.1 ∨ ey + d.2 < 0 ∨
        (GRID_HEIGHT : Int) ≤ ey + d.2)
    · have hstep : contactDirStep cd ex ey (tw, rm) d = (tw, rm) := by
        unfold contactDirStep
        rw [if_pos hoob]
      have hdh : dirHits ex ey t.position d = false := by
        unfold dirHits
        rw [decide_eq_true_eq.mpr hoob]
        simp
      have harith : D + cd * (((d :: rest).countP (dirHits ex ey t.position) : Nat) : ℚ) =
          D + cd * ((rest.countP (dirHits ex ey t.position) : Nat) : ℚ) := by
        rw [List.countP_cons, hdh]
        norm_num
      rw [hstep, harith]
      exact ih tw rm tid t D hcd hD hnodup hl hrm
    · have hstep : contactDirStep cd ex ey (tw, rm) d =
          damageTowersAt tw rm cd (ex + d.1) (ey + d.2) := by
        unfold contactDirStep
        rw [if_neg hoob]
      have hinv := damageTowersAt_inv cd (ex + d.1) (ey + d.2) tw rm tid t D hcd hD hnodup hl hrm
      have hD2 : 0 ≤ D + (if (t.position.x : Int) = ex + d.1 ∧ (t.position.y : Int) = ey + d.2
          then cd else 0) := by
        by_cases hm : (t.position.x : Int) = ex + d.1 ∧ (t.position.y : Int) = ey + d.2
        · rw [if_pos hm]
          linarith
        · rw [if_neg hm]
          linarith
      have hkeys := damageTowersAt_keys cd (ex + d.1) (ey + d.2) tw rm
      have hnodup2 : (keysA (damageTowersAt tw rm cd (ex + d.1) (ey + d.2)).1).Nodup := by
        rw [hkeys]
        exact hnodup
      have hrec := ih (damageTowersAt tw rm cd (ex + d.1) (ey + d.2)).1
        (damageTowersAt tw rm cd (ex + d.1) (ey + d.2)).2 tid t
        (D + (if (t.position.x : Int) = ex + d.1 ∧ (t.position.y : Int) = ey + d.2
          then cd else 0))
        hcd hD2 hnodup2 hinv.1 hinv.2
      have hdh : dirHits ex ey t.position d =
          decide ((t.position.x : Int) = ex + d.1 ∧ (t.position.y : Int) = ey + d.2) := by
        unfold dirHits
        rw [decide_eq_false hoob]
        simp
      have hfinal : D + cd * (((d :: rest).countP (dirHits ex ey t.position) : Nat) : ℚ) =
          (D + (if (t.position.x : Int) = ex + d.1 ∧ (t.position.y : Int) = ey + d.2
            then cd else 0)) + cd * ((rest.countP (dirHits ex ey t.position) : Nat) : ℚ) := by
        by_cases hm : (t.position.x : Int) = ex + d.1 ∧ (t.position.y : Int) = ey + d.2
        · have hdh2 : dirHits ex ey t.position d = true := by
            rw [hdh]
            exact decide_eq_true hm
          rw [List.countP_cons, hdh2, if_pos rfl, if_pos hm]
          push_cast
          ring
        · have hdh2 : dirHits ex ey t.position d = false := by
            rw [hdh]
            exact decide_eq_false hm
          rw [List.countP_cons, hdh2, if_neg (by simp), if_neg hm]
          push_cast
          ring
      rw [hstep, hfinal]
      exact ⟨hrec.1, hrec.2.1, hrec.2.2.trans hkeys⟩

/-- A direction that hits a fixed cell from a fixed center is uniquely
determined. -/
theorem dirHits_unique (ex ey : Int) (pos : Cell) (d : Int × Int)
    (h : dirHits ex ey pos d = true) : d = ((pos.x : Int) - ex, (pos.y : Int) - ey) := by
  unfold dirHits at h
  rw [Bool.and_eq_true] at h
  obtain ⟨h3, h4⟩ := of_decide_eq_true h.2
  obtain ⟨d1, d2⟩ := d
  rw [Prod.mk.injEq]
  constructor
  · simp only at h3
    omega
  · simp only at h4
    omega

theorem countP_le_one_of_forall_eq {α : Type} (l : List α) (P : α → Bool) (v : α)
    (hn : l.Nodup) (hu : ∀ a, P a = true → a = v) : l.countP P ≤ 1 := by
  induction l with
  | nil => simp
  | cons a rest ih =>
    obtain ⟨hna, hnr⟩ := List.nodup_cons.mp hn
    rw [List.countP_cons]
    by_cases hpa : P a = true
    · have hz : rest.countP P = 0 := by
        rw [List.countP_eq_zero]
        intro b hb hpb
        rw [hu b hpb, ← hu a hpa] at hb
        exact absurd hb hna
      rw [hz, hpa, if_pos rfl]
    · rw [if_neg hpa]
      simpa using ih hnr

/-- At most one of the four orthogonal neighbors of the enemy's cell is the
tower's cell, so the per-enemy contact damage is cd when adjacent (through an
in-bounds neighbor) and zero otherwise. -/
theorem adj_count_simplify (cd : ℚ) (ex ey : Int) (pos : Cell) :
    cd * ((ADJ_DIRS.countP (dirHits ex ey pos) : Nat) : ℚ) =
      if ADJ_DIRS.any (dirHits ex ey pos) = true then cd else 0 := by
  by_cases h : ADJ_DIRS.any (dirHits ex ey pos) = true
  · obtain ⟨d, hd, hpd⟩ := List.any_eq_true.mp h
    have h1 : 0 < ADJ_DIRS.countP (dirHits ex ey pos) := List.countP_pos_iff.mpr ⟨d, hd, hpd⟩
    have h2 := countP_le_one_of_forall_eq ADJ_DIRS (dirHits ex ey pos)
      ((pos.x : Int) - ex, (pos.y : Int) - ey) (by decide) (dirHits_unique ex ey pos)
    have h3 : ADJ_DIRS.countP (dirHits ex ey pos) = 1 := le_antisymm h2 h1
    rw [h3, if_pos h]
    norm_num
  · have h0 : ADJ_DIRS.countP (dirHits ex ey pos) = 0 := by
      rw [List.countP_eq_zero]
      intro a ha hpa
      exact h (List.any_eq_true.mpr ⟨a, ha, hpa⟩)
    rw [h0, if_neg h]
    norm_num

theorem contactDamage_pos (ty : EnemyType) : 0 < (ENEMY_STATS ty).contactDamage := by
  cases ty <;> norm_num [ENEMY_STATS]

theorem enemyStep_unspawned (move : MoveRule) (dt : ℚ) (eid : String) (e : Enemy)
    (acc : EnemyAcc) (hsp : e.spawned = false) : enemyStep move dt eid e acc = (e, acc) := by
  unfold enemyStep
  rw [if_pos hsp]

/-- Accumulator effect of one spawned enemy's step: towers and the tower
removal list come from the contact pass; players and the enemy removal list
change exactly when the route is exhausted. -/
theorem enemyStep_acc_spawned (move : MoveRule) (dt : ℚ) (eid : String) (e : Enemy)
    (acc : EnemyAcc) (hsp : e.spawned = true) :
    ((enemyStep move dt eid e acc).2.towers =
      (contactPass e acc.towers acc.towersToRemove).1) ∧
    ((enemyStep move dt eid e acc).2.towersToRemove =
      (contactPass e acc.towers acc.towersToRemove).2) ∧
    ((enemyStep move dt eid e acc).2.players =
      if enemyAtGoal e = true then enemyReachedGoal acc.players e.targetSide e.creditValue
      else acc.players) ∧
    ((enemyStep move dt eid e acc).2.enemiesToRemove =
      if enemyAtGoal e = true then acc.enemiesToRemove ++ [eid]
      else acc.enemiesToRemove) := by
  have hnsp : ¬(e.spawned = false) := by
    rw [hsp]
    simp
  unfold enemyStep
  rw [if_neg hnsp]
  cases hp : e.path.get? (e.pathIndex + 1) with
  | none =>
    have hg : enemyAtGoal e = true := by
      unfold enemyAtGoal
      rw [hsp, hp]
      rfl
    rw [hg]
    dsimp only
    exact ⟨rfl, rfl, rfl, rfl⟩
  | some target =>
    have hg : enemyAtGoal e = false := by
      unfold enemyAtGoal
      rw [hsp, hp]
      rfl
    rw [hg]
    dsimp only
    by_cases hsnap : ((target.x : ℚ) - e.position.x) ^ 2 + ((target.y : ℚ) - e.position.y) ^ 2 <
        (1 / 20) ^ 2
    · rw [if_pos hsnap]
      simp
    · rw [if_neg hsnap]
      simp

/-- One enemy's step adds its contact damage to the tracked tower exactly when
the enemy is spawned and adjacent, preserving the removal-list and key
invariants. -/
theorem enemyStep_towers_inv (move : MoveRule) (dt : ℚ) (eid : String) (e : Enemy)
    (acc : EnemyAcc) (tid : String) (t : Tower) (D : ℚ)
    (hD : 0 ≤ D) (hnodup : (keysA acc.towers).Nodup)
    (hl : lookupA tid acc.towers = some { t with health := t.health - D })
    (hrm : tid ∈ acc.towersToRemove ↔ 0 < D ∧ t.health - D ≤ 0) :
    (lookupA tid (enemyStep move dt eid e acc).2.towers =
      some { t with
             health := t.health - (D + (if enemyAdjacentTo e t.position = true then
               (ENEMY_STATS e.type).contactDamage else 0)) }) ∧
    (tid ∈ (enemyStep move dt eid e acc).2.towersToRemove ↔
      0 < D + (if enemyAdjacentTo e t.position = true then
        (ENEMY_STATS e.type).contactDamage else 0) ∧
      t.health - (D + (if enemyAdjacentTo e t.position = true then
        (ENEMY_STATS e.type).contactDamage else 0)) ≤ 0) ∧
    keysA (enemyStep move dt eid e acc).2.towers = keysA acc.towers := by
  cases hsp : e.spawned with
  | false =>
    have hstep := enemyStep_unspawned move dt eid e acc hsp
    have hadj : enemyAdjacentTo e t.position = false := by
      unfold enemyAdjacentTo
      rw [hsp]
      rfl
    rw [hstep, hadj]
    simp only [Bool.false_eq_true, if_false, add_zero]
    exact ⟨hl, hrm, trivial⟩
  | true =>
    obtain ⟨htow, hrm2, _, _⟩ := enemyStep_acc_spawned move dt eid e acc hsp
    have hcp := contactDirFold_inv (ENEMY_STATS e.type).contactDamage
      (jsRound e.position.x) (jsRound e.position.y) ADJ_DIRS acc.towers acc.towersToRemove
      tid t D (contactDamage_pos e.type) hD hnodup hl hrm
    have hadj : enemyAdjacentTo e t.position =
        ADJ_DIRS.any (dirHits (jsRound e.position.x) (jsRound e.position.y) t.position) := by
      unfold enemyAdjacentTo
      rw [hsp, Bool.true_and]
    have hsum : D + (if enemyAdjacentTo e t.position = true then
        (ENEMY_STATS e.type).contactDamage else 0) =
        D + (ENEMY_STATS e.type).contactDamage *
          ((ADJ_DIRS.countP (dirHits (jsRound e.position.x) (jsRound e.position.y)
            t.position) : Nat) : ℚ) := by
      rw [hadj, ← adj_count_simplify]
    rw [hsum, htow, hrm2]
    unfold contactPass at hcp ⊢
    exact hcp

theorem totalContactDamage_cons (q : String × Enemy) (rest : List (String × Enemy))
    (pos : Cell) :
    totalContactDamage (q :: rest) pos =
      (if enemyAdjacentTo q.2 pos = true then (ENEMY_STATS q.2.type).contactDamage else 0) +
        totalContactDamage rest pos := by
  unfold totalContactDamage
  rw [List.map_cons, List.sum_cons]

theorem contactDamage_if_nonneg (e : Enemy) (pos : Cell) :
    0 ≤ (if enemyAdjacentTo e pos = true then (ENEMY_STATS e.type).contactDamage else 0) := by
  by_cases h : enemyAdjacentTo e pos = true
  · rw [if_pos h]
    exact (contactDamage_pos e.type).le
  · rw [if_neg h]

/-- Tracked-tower invariant through the whole per-enemy iteration: the
accumulated contact damage after the pass is the initial deficit plus the
total contact damage of the enemy list, and the tower is marked for removal
exactly when that total is positive and exhausts its health. -/
theorem enemiesPass_towers_inv (move : MoveRule) (dt : ℚ) :
    ∀ (es : List (String × Enemy)) (acc : EnemyAcc) (tid : String) (t : Tower) (D : ℚ),
    0 ≤ D → (keysA acc.towers).Nodup →
    lookupA tid acc.towers = some { t with health := t.health - D } →
    (tid ∈ acc.towersToRemove ↔ 0 < D ∧ t.health - D ≤ 0) →
    (lookupA tid (enemiesPass move dt es acc).2.towers =
      some { t with health := t.health - (D + totalContactDamage es t.position) }) ∧
    (tid ∈ (enemiesPass move dt es acc).2.towersToRemove ↔
      0 < D + totalContactDamage es t.position ∧
      t.health - (D + totalContactDamage es t.position) ≤ 0) ∧
    keysA (enemiesPass move dt es acc).2.towers = keysA acc.towers := by
  intro es
  induction es with
  | nil =>
    intro acc tid t D hD hnodup hl hrm
    unfold enemiesPass
    have hz : totalContactDamage [] t.position = 0 := rfl
    rw [hz, add_zero]
    exact ⟨hl, hrm, rfl⟩
  | cons q rest ih =>
    intro acc tid t D hD hnodup hl hrm
    obtain ⟨qid, e⟩ := q
    obtain ⟨h1, h2, h3⟩ := enemyStep_towers_inv move dt qid e acc tid t D hD hnodup hl hrm
    have hc := contactDamage_if_nonneg e t.position
    have hD2 : 0 ≤ D + (if enemyAdjacentTo e t.position = true then
        (ENEMY_STATS e.type).contactDamage else 0) := by linarith
    have hnodup2 : (keysA (enemyStep move dt qid e acc).2.towers).Nodup := by
      rw [h3]
      exact hnodup
    obtain ⟨g1, g2, g3⟩ := ih (enemyStep move dt qid e acc).2 tid t _ hD2 hnodup2 h1 h2
    have hpass : enemiesPass move dt ((qid, e) :: rest) acc =
        ((qid, (enemyStep move dt qid e acc).1) ::
          (enemiesPass move dt rest (enemyStep move dt qid e acc).2).1,
         (enemiesPass move dt rest (enemyStep move dt qid e acc).2).2) := rfl
    rw [hpass, totalContactDamage_cons]
    dsimp only
    rw [← add_assoc]
    exact ⟨g1, g2, g3.trans h3⟩

/-- The player and enemy-removal effect of one enemy's step, in every case:
a goal event happens exactly when the enemy is spawned with an exhausted
route. -/
theorem enemyStep_goal_effects (move : MoveRule) (dt : ℚ) (eid : String) (e : Enemy)
    (acc : EnemyAcc) :
    ((enemyStep move dt eid e acc).2.players =
      if enemyAtGoal e = true then enemyReachedGoal acc.players e.targetSide e.creditValue
      else acc.players) ∧
    ((enemyStep move dt eid e acc).2.enemiesToRemove =
      if enemyAtGoal e = true then acc.enemiesToRemove ++ [eid]
      else acc.enemiesToRemove) := by
  cases hsp : e.spawned with
  | false =>
    have hg : enemyAtGoal e = false := by
      unfold enemyAtGoal
      rw [hsp]
      rfl
    rw [enemyStep_unspawned move dt eid e acc hsp, hg]
    simp
  | true =>
    obtain ⟨_, _, h3, h4⟩ := enemyStep_acc_spawned move dt eid e acc hsp
    exact ⟨h3, h4⟩

/-- After the pass, the enemy-removal list is the initial one extended, in
order, with the ids of the enemies whose goal event fired. -/
theorem enemiesPass_toRemove (move : MoveRule) (dt : ℚ) :
    ∀ (es : List (String × Enemy)) (acc : EnemyAcc),
    (enemiesPass move dt es acc).2.enemiesToRemove =
      acc.enemiesToRemove ++ (es.filter (fun q => enemyAtGoal q.2)).map Prod.fst := by
  intro es
  induction es with
  | nil =>
    intro acc
    simp [enemiesPass]
  | cons q rest ih =>
    intro acc
    obtain ⟨qid, e⟩ := q
    have hpass : enemiesPass move dt ((qid, e) :: rest) acc =
        ((qid, (enemyStep move dt qid e acc).1) ::
          (enemiesPass move dt rest (enemyStep move dt qid e acc).2).1,
         (enemiesPass move dt rest (enemyStep move dt qid e acc).2).2) := rfl
    rw [hpass]
    dsimp only
    rw [ih]
    obtain ⟨_, h4⟩ := enemyStep_goal_effects move dt qid e acc
    rw [h4]
    by_cases hg : enemyAtGoal e = true
    · rw [List.filter_cons]
      simp only [hg, if_true, List.map_cons, List.append_assoc, if_pos]
      rfl
    · have hg2 : enemyAtGoal e = false := by
        simp at hg
        exact hg
      rw [List.filter_cons]
      simp only [hg2, Bool.false_eq_true, if_false]

/-- Looking up a tower after the end-of-tick removal fold: removed ids are
gone, all other entries are untouched (for the tracked tower the grid part of
the fold state is irrelevant). -/
theorem towersRemoveFold_lookup (ids : List String) :
    ∀ (tw : List (String × Tower)) (g : GridState) (tid : String),
    lookupA tid (ids.foldl
      (fun (acc : List (String × Tower) × GridState) id =>
        match lookupA id acc.1 with
        | some t => (eraseA id acc.1, setCell acc.2 t.position.y t.position.x CellType.empty)
        | none => acc) (tw, g)).1 =
      if tid ∈ ids then none else lookupA tid tw := by
  induction ids with
  | nil =>
    intro tw g tid
    rw [if_neg (List.not_mem_nil tid)]
    rfl
  | cons i rest ih =>
    intro tw g tid
    rw [List.foldl_cons]
    by_cases htid : tid = i
    · subst htid
      rw [if_pos (List.mem_cons_self tid rest)]
      rcases hli : lookupA tid tw with _ | t
      · simp only [hli]
        rw [ih tw g tid]
        by_cases hm : tid ∈ rest
        · rw [if_pos hm]
        · rw [if_neg hm]
          exact hli
      · simp only [hli]
        rw [ih (eraseA tid tw) _ tid]
        by_cases hm : tid ∈ rest
        · rw [if_pos hm]
        · rw [if_neg hm]
          exact lookupA_eraseA_self tid tw
    · have hmem : tid ∈ i :: rest ↔ tid ∈ rest := by
        simp [List.mem_cons, htid]
      rcases hli : lookupA i tw with _ | t
      · simp only [hli]
        rw [ih tw g tid]
        by_cases hm : tid ∈ rest
        · rw [if_pos hm, if_pos (hmem.mpr hm)]
        · rw [if_neg hm, if_neg (fun hc => hm (hmem.mp hc))]
      · simp only [hli]
        rw [ih (eraseA i tw) _ tid]
        by_cases hm : tid ∈ rest
        · rw [if_pos hm, if_pos (hmem.mpr hm)]
        · rw [if_neg hm, if_neg (fun hc => hm (hmem.mp hc))]
          exact lookupA_eraseA_ne htid tw

/-- Looking up an enemy after the goal-removal fold. -/
theorem eraseListFold_lookup {ν : Type} (ids : List String) :
    ∀ (es : List (String × ν)) (tid : String),
    lookupA tid (ids.foldl (fun es id => eraseA id es) es) =
      if tid ∈ ids then none else lookupA tid es := by
  induction ids with
  | nil =>
    intro es tid
    rw [if_neg (List.not_mem_nil tid)]
    rfl
  | cons i rest ih =>
    intro es tid
    rw [List.foldl_cons, ih (eraseA i es) tid]
    by_cases htid : tid = i
    · subst htid
      rw [if_pos (List.mem_cons_self tid rest)]
      by_cases hm : tid ∈ rest
      · rw [if_pos hm]
      · rw [if_neg hm]
        exact lookupA_eraseA_self tid es
    · have hmem : tid ∈ i :: rest ↔ tid ∈ rest := by
        simp [List.mem_cons, htid]
      by_cases hm : tid ∈ rest
      · rw [if_pos hm, if_pos (hmem.mpr hm)]
      · rw [if_neg hm, if_neg (fun hc => hm (hmem.mp hc))]
        exact lookupA_eraseA_ne htid es

/-- Net effect of one EnemySystem.update tick on a tracked tower, during
COMBAT: its health drops by the total contact damage of the enemy list
(independent of the tick delta), and it is deleted exactly when that
accumulated total is positive and brings its health to zero or below. -/
theorem enemySystemUpdate_tower_health (move : MoveRule) (s : GameState) (dt : ℚ)
    (tid : String) (t : Tower)
    (hphase : s.phase = GamePhase.combat)
    (hnodup : (keysA s.towers).Nodup)
    (hl : lookupA tid s.towers = some t) :
    lookupA tid (enemySystemUpdate move s dt).towers =
      if 0 < totalContactDamage s.enemies t.position ∧
         t.health - totalContactDamage s.enemies t.position ≤ 0 then none
      else some { t with health := t.health - totalContactDamage s.enemies t.position } := by
  have h0 : ¬(s.phase ≠ GamePhase.combat) := by
    rw [hphase]
    simp
  have hl0 : lookupA tid s.towers = some { t with health := t.health - 0 } := by
    rw [sub_zero]
    exact hl
  have hrm0 : tid ∈ ([] : List String) ↔ (0 : ℚ) < 0 ∧ t.health - 0 ≤ 0 := by
    simp
  obtain ⟨g1, g2, _⟩ := enemiesPass_towers_inv move dt s.enemies
    ⟨s.towers, s.players, [], []⟩ tid t 0 le_rfl hnodup hl0 hrm0
  rw [zero_add] at g1 g2
  unfold enemySystemUpdate
  rw [if_neg h0]
  dsimp only
  rw [towersRemoveFold_lookup]
  by_cases hP : 0 < totalContactDamage s.enemies t.position ∧
      t.health - totalContactDamage s.enemies t.position ≤ 0
  · rw [if_pos (g2.mpr hP), if_pos hP]
  · rw [if_neg (fun hc => hP (g2.mp hc)), if_neg hP]
    exact g1

/-- Claim C4: on a COMBAT tick, a tower loses health equal to the summed
contact damage of the spawned enemies adjacent to its cell — a fixed
per-enemy, per-tick amount that the code does not multiply by the tick
delta — and the accumulated total is compared against its health only once,
so the tower dies (and is removed at the end of the iteration) exactly when
the full accumulated damage exhausts its health. -/
theorem contact_damage_per_tick (move : MoveRule) (s : GameState) (dt : ℚ)
    (tid : String) (t : Tower)
    (hphase : s.phase = GamePhase.combat)
    (hnodup : (keysA s.towers).Nodup)
    (hl : lookupA tid s.towers = some t) :
    lookupA tid (enemySystemUpdate move s dt).towers =
      if 0 < totalContactDamage s.enemies t.position ∧
         t.health - totalContactDamage s.enemies t.position ≤ 0 then none
      else some { t with health := t.health - totalContactDamage s.enemies t.position } :=
  enemySystemUpdate_tower_health move s dt tid t hphase hnodup hl

theorem contact_damage_per_tick_witness :
    lookupA "t1" (enemySystemUpdate noMove fixtureContactState 1).towers =
      if 0 < totalContactDamage fixtureContactState.enemies fixtureTower.position ∧
         fixtureTower.health - totalContactDamage fixtureContactState.enemies
           fixtureTower.position ≤ 0 then none
      else some { fixtureTower with
                  health := fixtureTower.health -
                    totalContactDamage fixtureContactState.enemies fixtureTower.position } :=
  contact_damage_per_tick noMove fixtureContactState 1 "t1" fixtureTower rfl
    (by decide) rfl

/-- The tower adjacent to one spawned basic enemy loses the full 0.5 contact
damage on a tick of dt = 1/20 second, not 0.5 * dt: the per-tick loss is not
scaled by the tick delta. -/
theorem contact_damage_not_scaled_by_dt_cex :
    lookupA "t1" (enemySystemUpdate noMove fixtureContactState (1 / 20)).towers =
      some { fixtureTower with health := fixtureTower.health - 1 / 2 } ∧
    fixtureTower.health - 1 / 2 ≠
      fixtureTower.health -
        (ENEMY_STATS fixtureMovingEnemy.type).contactDamage * (1 / 20) := by
  have hx : jsRound (5 : ℚ) = 5 := by norm_num [jsRound]
  have hy : jsRound (14 : ℚ) = 14 := by norm_num [jsRound]
  have hT : totalContactDamage fixtureContactState.enemies fixtureTower.position = 1 / 2 := by
    norm_num [totalContactDamage, enemyAdjacentTo, dirHits, ADJ_DIRS, fixtureContactState,
      fixtureMovingEnemy, fixtureGoalEnemy, fixtureTower, fixtureStateBase, ENEMY_STATS,
      hx, hy, GRID_WIDTH, GRID_HEIGHT]
  have h := enemySystemUpdate_tower_health noMove fixtureContactState (1 / 20) "t1"
    fixtureTower rfl (by decide) rfl
  rw [hT] at h
  constructor
  · rw [h, if_neg]
    intro hc
    have hh : fixtureTower.health = 200 := rfl
    rw [hh] at hc
    have := hc.2
    norm_num at this
  · have hh : fixtureTower.health = 200 := rfl
    have hcd : (ENEMY_STATS fixtureMovingEnemy.type).contactDamage = 1 / 2 := rfl
    rw [hh, hcd]
    norm_num

/-- Two successive clamped health losses collapse into one clamped loss of
the total. -/
theorem max_zero_sub_comp (h a b : ℚ) (hb : 0 ≤ b) :
    max 0 (max 0 (h - a) - b) = max 0 (h - (a + b)) := by
  rcases le_or_lt (h - a) 0 with hc | hc
  · rw [max_eq_left hc]
    have h2 : (0 : ℚ) - b ≤ 0 := by linarith
    have h3 : h - (a + b) ≤ 0 := by linarith
    rw [max_eq_left h2, max_eq_left h3]
  · rw [max_eq_right hc.le]
    have h4 : h - a - b = h - (a + b) := by ring
    rw [h4]

theorem erg_sides (sd : PlayerSide) (dmg : ℚ) :
    ∀ ps : List (String × Player),
    (enemyReachedGoal ps sd dmg).map (fun q => q.2.side) = ps.map (fun q => q.2.side) := by
  intro ps
  induction ps with
  | nil => rfl
  | cons q rest ih =>
    obtain ⟨qid, p0⟩ := q
    unfold enemyReachedGoal
    by_cases hqs : p0.side = sd
    · rw [if_pos hqs]
      rfl
    · rw [if_neg hqs, List.map_cons, List.map_cons, ih]

theorem erg_credits (sd : PlayerSide) (dmg : ℚ) :
    ∀ ps : List (String × Player),
    (enemyReachedGoal ps sd dmg).map (fun q => (q.1, q.2.credits)) =
      ps.map (fun q => (q.1, q.2.credits)) := by
  intro ps
  induction ps with
  | nil => rfl
  | cons q rest ih =>
    obtain ⟨qid, p0⟩ := q
    unfold enemyReachedGoal
    by_cases hqs : p0.side = sd
    · rw [if_pos hqs]
      rfl
    · rw [if_neg hqs, List.map_cons, List.map_cons, ih]

theorem erg_mem (sd : PlayerSide) (dmg : ℚ) :
    ∀ (ps : List (String × Player)) (q : String × Player),
    q ∈ enemyReachedGoal ps sd dmg → q ∈ ps ∨ q.2.side = sd := by
  intro ps
  induction ps with
  | nil =>
    intro q hq
    exact absurd hq (List.not_mem_nil q)
  | cons q0 rest ih =>
    intro q hq
    obtain ⟨qid, p0⟩ := q0
    unfold enemyReachedGoal at hq
    by_cases hqs : p0.side = sd
    · rw [if_pos hqs] at hq
      rcases List.mem_cons.mp hq with hh | ht
      · right
        rw [hh]
        exact hqs
      · exact Or.inl (List.mem_cons_of_mem _ ht)
    · rw [if_neg hqs] at hq
      rcases List.mem_cons.mp hq with hh | ht
      · exact Or.inl (hh ▸ List.mem_cons_self _ _)
      · rcases ih q ht with hin | hside
        · exact Or.inl (List.mem_cons_of_mem _ hin)
        · exact Or.inr hside

/-- Tracked-player invariant through one goal event: when the goal side
matches, the accumulated (clamped) loss grows by the damage; otherwise the
tracked player is untouched.  The uniqueness hypothesis says the tracked
player is the only one defending their side. -/
theorem enemyReachedGoal_inv (sd2 : PlayerSide) (dmg : ℚ) (hdmg : 0 ≤ dmg) :
    ∀ (players : List (String × Player)) (pid : String) (p : Player) (G : ℚ),
    (players.map (fun q => q.2.side)).Nodup →
    lookupA pid players = some { p with health := max 0 (p.health - G) } →
    (∀ q ∈ players, q.2.side = p.side →
      q = (pid, { p with health := max 0 (p.health - G) })) →
    (lookupA pid (enemyReachedGoal players sd2 dmg) =
      some { p with health := max 0 (p.health -
        (G + if sd2 = p.side then dmg else 0)) }) ∧
    (∀ q ∈ enemyReachedGoal players sd2 dmg, q.2.side = p.side →
      q = (pid, { p with health := max 0 (p.health -
        (G + if sd2 = p.side then dmg else 0)) })) := by
  intro players
  induction players with
  | nil =>
    intro pid p G hnd hl hu
    simp [lookupA] at hl
  | cons q0 rest ih =>
    intro pid p G hnd hl hu
    obtain ⟨qid, pq⟩ := q0
    have hnd' : (pq.side :: rest.map (fun q => q.2.side)).Nodup := by
      rw [List.map_cons] at hnd
      exact hnd
    have hnd2 := List.nodup_cons.mp hnd'
    by_cases hqs : pq.side = sd2
    · have herg : enemyReachedGoal ((qid, pq) :: rest) sd2 dmg =
          (qid, { pq with health := max 0 (pq.health - dmg) }) :: rest := by
        unfold enemyReachedGoal
        rw [if_pos hqs]
      by_cases hsp : sd2 = p.side
      · have hq0 : (qid, pq) = (pid, { p with health := max 0 (p.health - G) }) :=
          hu (qid, pq) (List.mem_cons_self _ _) (by rw [hqs, hsp])
        rw [Prod.mk.injEq] at hq0
        obtain ⟨hqid, hpq⟩ := hq0
        subst hqid
        subst hpq
        rw [herg, if_pos hsp]
        constructor
        · rw [lookupA_cons_self]
          dsimp only
          rw [max_zero_sub_comp p.health G dmg hdmg]
        · intro q hq hside
          rcases List.mem_cons.mp hq with hh | ht
          · rw [hh]
            dsimp only
            rw [max_zero_sub_comp p.health G dmg hdmg]
          · exfalso
            have hmem : q.2.side ∈ rest.map (fun q => q.2.side) :=
              List.mem_map_of_mem _ ht
            rw [hside] at hmem
            apply hnd2.1
            have hps : ({ p with health := max 0 (p.health - G) } : Player).side = p.side := rfl
            simpa [hps, hqs, hsp] using hmem
      · have hqp : pq.side ≠ p.side := by
          rw [hqs]
          exact hsp
        have hqid : qid ≠ pid := by
          intro hc
          subst hc
          rw [lookupA_cons_self] at hl
          have := Option.some.inj hl
          apply hqp
          rw [this]
        rw [herg, if_neg hsp]
        constructor
        · rw [lookupA_cons_ne hqid]
          rw [lookupA_cons_ne hqid] at hl
          rw [add_zero]
          exact hl
        · intro q hq hside
          rcases List.mem_cons.mp hq with hh | ht
          · exfalso
            apply hqp
            rw [← hside, hh]
          · rw [add_zero]
            exact hu q (List.mem_cons_of_mem _ ht) hside
    · have herg : enemyReachedGoal ((qid, pq) :: rest) sd2 dmg =
          (qid, pq) :: enemyReachedGoal rest sd2 dmg := by
        have h0 : enemyReachedGoal ((qid, pq) :: rest) sd2 dmg =
            if pq.side = sd2 then
              (qid, { pq with health := max 0 (pq.health - dmg) }) :: rest
            else (qid, pq) :: enemyReachedGoal rest sd2 dmg := rfl
        rw [h0, if_neg hqs]
      by_cases hqid : qid = pid
      · subst hqid
        rw [lookupA_cons_self] at hl
        have hpq := Option.some.inj hl
        have hqp : pq.side = p.side := by
          rw [hpq]
        have hsp : sd2 ≠ p.side := by
          intro hc
          apply hqs
          rw [hqp, hc]
        rw [herg, if_neg hsp]
        constructor
        · rw [lookupA_cons_self, hpq, add_zero]
        · intro q hq hside
          rcases List.mem_cons.mp hq with hh | ht
          · rw [hh, hpq, add_zero]
          · rcases erg_mem sd2 dmg rest q ht with hin | hsideq
            · rw [add_zero]
              exact hu q (List.mem_cons_of_mem _ hin) hside
            · exfalso
              apply hsp
              rw [← hside, hsideq]
      · have hlr : lookupA pid rest = some { p with health := max 0 (p.health - G) } := by
          rw [lookupA_cons_ne hqid] at hl
          exact hl
        have hur : ∀ q ∈ rest, q.2.side = p.side →
            q = (pid, { p with health := max 0 (p.health - G) }) := fun q hq hs =>
          hu q (List.mem_cons_of_mem _ hq) hs
        obtain ⟨g1, g2⟩ := ih pid p G hnd2.2 hlr hur
        rw [herg]
        constructor
        · rw [lookupA_cons_ne hqid]
          exact g1
        · intro q hq hside
          rcases List.mem_cons.mp hq with hh | ht
          · exfalso
            apply hqid
            have hside2 : pq.side = p.side := by
              rw [hh] at hside
              exact hside
            have h2 := hu (qid, pq) (List.mem_cons_self _ _) hside2
            rw [Prod.mk.injEq] at h2
            exact h2.1
          · exact g2 q ht hside

theorem goalCreditSum_cons (q : String × Enemy) (rest : List (String × Enemy))
    (sd : PlayerSide) :
    goalCreditSum (q :: rest) sd =
      (if (enemyAtGoal q.2 && decide (q.2.targetSide = sd)) = true then q.2.creditValue
       else 0) + goalCreditSum rest sd := by
  unfold goalCreditSum
  rw [List.map_cons, List.sum_cons]

/-- Tracked-player invariant through the whole per-enemy iteration: the
clamped accumulated goal damage grows by the credit value of every spawned,
route-exhausted enemy targeting the player's side. -/
theorem enemiesPass_players_inv (move : MoveRule) (dt : ℚ) :
    ∀ (es : List (String × Enemy)) (acc : EnemyAcc) (pid : String) (p : Player) (G : ℚ),
    (∀ q ∈ es, 0 ≤ q.2.creditValue) →
    (acc.players.map (fun q => q.2.side)).Nodup →
    lookupA pid acc.players = some { p with health := max 0 (p.health - G) } →
    (∀ q ∈ acc.players, q.2.side = p.side →
      q = (pid, { p with health := max 0 (p.health - G) })) →
    lookupA pid (enemiesPass move dt es acc).2.players =
      some { p with health := max 0 (p.health - (G + goalCreditSum es p.side)) } := by
  intro es
  induction es with
  | nil =>
    intro acc pid p G _ _ hl _
    have hz : goalCreditSum [] p.side = 0 := rfl
    rw [hz, add_zero]
    exact hl
  | cons q rest ih =>
    intro acc pid p G hcv hnd hl hu
    obtain ⟨eid, e⟩ := q
    have hpass : enemiesPass move dt ((eid, e) :: rest) acc =
        ((eid, (enemyStep move dt eid e acc).1) ::
          (enemiesPass move dt rest (enemyStep move dt eid e acc).2).1,
         (enemiesPass move dt rest (enemyStep move dt eid e acc).2).2) := rfl
    rw [hpass]
    dsimp only
    obtain ⟨hpl, _⟩ := enemyStep_goal_effects move dt eid e acc
    have hcvr : ∀ q ∈ rest, 0 ≤ q.2.creditValue := fun q hq =>
      hcv q (List.mem_cons_of_mem _ hq)
    rw [goalCreditSum_cons]
    by_cases hg : enemyAtGoal e = true
    · have hple : (enemyStep move dt eid e acc).2.players =
          enemyReachedGoal acc.players e.targetSide e.creditValue := by
        rw [hpl, if_pos hg]
      have hdmg : 0 ≤ e.creditValue := hcv (eid, e) (List.mem_cons_self _ _)
      obtain ⟨g1, g2⟩ := enemyReachedGoal_inv e.targetSide e.creditValue hdmg
        acc.players pid p G hnd hl hu
      have hnd2 : ((enemyStep move dt eid e acc).2.players.map
          (fun q => q.2.side)).Nodup := by
        rw [hple, erg_sides]
        exact hnd
      rw [← hple] at g1 g2
      have hfin := ih (enemyStep move dt eid e acc).2 pid p
        (G + if e.targetSide = p.side then e.creditValue else 0) hcvr hnd2 g1 g2
      rw [hfin]
      have hcond : (if (enemyAtGoal (eid, e).2 && decide ((eid, e).2.targetSide = p.side)) = true
          then (eid, e).2.creditValue else 0) =
          (if e.targetSide = p.side then e.creditValue else 0) := by
        dsimp only
        rw [hg, Bool.true_and]
        by_cases ht : e.targetSide = p.side
        · rw [if_pos ht, if_pos (decide_eq_true ht)]
        · rw [if_neg ht, if_neg (fun hc => ht (of_decide_eq_true hc))]
      rw [hcond, ← add_assoc]
    · have hg2 : enemyAtGoal e = false := by
        simp at hg
        exact hg
      have hple : (enemyStep move dt eid e acc).2.players = acc.players := by
        rw [hpl, hg2]
        simp
      have hnd2 : ((enemyStep move dt eid e acc).2.players.map
          (fun q => q.2.side)).Nodup := by
        rw [hple]
        exact hnd
      have hl2 : lookupA pid (enemyStep move dt eid e acc).2.players =
          some { p with health := max 0 (p.health - G) } := by
        rw [hple]
        exact hl
      have hu2 : ∀ q ∈ (enemyStep move dt eid e acc).2.players, q.2.side = p.side →
          q = (pid, { p with health := max 0 (p.health - G) }) := by
        rw [hple]
        exact hu
      have hfin := ih (enemyStep move dt eid e acc).2 pid p G hcvr hnd2 hl2 hu2
      rw [hfin]
      have hcond : (if (enemyAtGoal (eid, e).2 && decide ((eid, e).2.targetSide = p.side)) = true
          then (eid, e).2.creditValue else 0) = 0 := by
        dsimp only
        rw [hg2, Bool.false_and]
        rfl
      rw [hcond, zero_add]

/-- No step of the per-enemy iteration touches any player's credits. -/
theorem enemiesPass_credits (move : MoveRule) (dt : ℚ) :
    ∀ (es : List (String × Enemy)) (acc : EnemyAcc),
    (enemiesPass move dt es acc).2.players.map (fun q => (q.1, q.2.credits)) =
      acc.players.map (fun q => (q.1, q.2.credits)) := by
  intro es
  induction es with
  | nil =>
    intro acc
    rfl
  | cons q rest ih =>
    intro acc
    obtain ⟨eid, e⟩ := q
    have hpass : enemiesPass move dt ((eid, e) :: rest) acc =
        ((eid, (enemyStep move dt eid e acc).1) ::
          (enemiesPass move dt rest (enemyStep move dt eid e acc).2).1,
         (enemiesPass move dt rest (enemyStep move dt eid e acc).2).2) := rfl
    rw [hpass]
    dsimp only
    rw [ih]
    obtain ⟨hpl, _⟩ := enemyStep_goal_effects move dt eid e acc
    rw [hpl]
    by_cases hg : enemyAtGoal e = true
    · rw [if_pos hg, erg_credits]
    · rw [if_neg hg]

/-- Net effect of one EnemySystem.update tick on goal events, during COMBAT:
the tracked player (the sole defender of their side, with nonnegative health)
ends at max 0 (health - total incoming credit value), every spawned
route-exhausted enemy is deleted, and no player's credits change. -/
theorem enemySystemUpdate_goal_events (move : MoveRule) (s : GameState) (dt : ℚ)
    (pid eid : String) (p : Player) (e : Enemy)
    (hphase : s.phase = GamePhase.combat)
    (hcv : ∀ q ∈ s.enemies, 0 ≤ q.2.creditValue)
    (hsides : (s.players.map (fun q => q.2.side)).Nodup)
    (hlp : lookupA pid s.players = some p)
    (hp0 : 0 ≤ p.health)
    (huniq : ∀ q ∈ s.players, q.2.side = p.side → q = (pid, p))
    (hmem : (eid, e) ∈ s.enemies)
    (hg : enemyAtGoal e = true) :
    (lookupA pid (enemySystemUpdate move s dt).players =
      some { p with health := max 0 (p.health - goalCreditSum s.enemies p.side) }) ∧
    (lookupA eid (enemySystemUpdate move s dt).enemies = none) ∧
    ((enemySystemUpdate move s dt).players.map (fun q => (q.1, q.2.credits)) =
      s.players.map (fun q => (q.1, q.2.credits))) := by
  have h0 : ¬(s.phase ≠ GamePhase.combat) := by
    rw [hphase]
    simp
  have hmax : max 0 p.health = p.health := max_eq_right hp0
  have hl0 : lookupA pid s.players = some { p with health := max 0 (p.health - 0) } := by
    rw [sub_zero, hmax]
    have hp : ({ p with health := p.health } : Player) = p := rfl
    rw [hp]
    exact hlp
  have hu0 : ∀ q ∈ s.players, q.2.side = p.side →
      q = (pid, { p with health := max 0 (p.health - 0) }) := by
    intro q hq hs
    rw [sub_zero, hmax]
    have hp : ({ p with health := p.health } : Player) = p := rfl
    rw [hp]
    exact huniq q hq hs
  have g1 := enemiesPass_players_inv move dt s.enemies ⟨s.towers, s.players, [], []⟩
    pid p 0 hcv hsides hl0 hu0
  rw [zero_add] at g1
  have hids : eid ∈ (enemiesPass move dt s.enemies
      ⟨s.towers, s.players, [], []⟩).2.enemiesToRemove := by
    rw [enemiesPass_toRemove]
    refine List.mem_append.mpr (Or.inr ?_)
    refine List.mem_map.mpr ⟨(eid, e), ?_, rfl⟩
    refine List.mem_filter.mpr ⟨hmem, hg⟩
  refine ⟨?_, ?_, ?_⟩
  · unfold enemySystemUpdate
    rw [if_neg h0]
    dsimp only
    exact g1
  · unfold enemySystemUpdate
    rw [if_neg h0]
    dsimp only
    rw [eraseListFold_lookup, if_pos hids]
  · unfold enemySystemUpdate
    rw [if_neg h0]
    dsimp only
    rw [enemiesPass_credits]

/-- Claim C6: when spawned enemies exhaust their captured routes on a COMBAT
tick, the sole defender of the targeted side loses health equal to the total
incoming credit value but clamped at zero (health becomes
max 0 (health - total), so the loss is min(health, total), not always exactly
the credit value), each such enemy is deleted from the enemy mapping, and no
player's credits change from the goal events. -/
theorem goal_event_outcome (move : MoveRule) (s : GameState) (dt : ℚ)
    (pid eid : String) (p : Player) (e : Enemy)
    (hphase : s.phase = GamePhase.combat)
    (hcv : ∀ q ∈ s.enemies, 0 ≤ q.2.creditValue)
    (hsides : (s.players.map (fun q => q.2.side)).Nodup)
    (hlp : lookupA pid s.players = some p)
    (hp0 : 0 ≤ p.health)
    (huniq : ∀ q ∈ s.players, q.2.side = p.side → q = (pid, p))
    (hmem : (eid, e) ∈ s.enemies)
    (hg : enemyAtGoal e = true) :
    (lookupA pid (enemySystemUpdate move s dt).players =
      some { p with health := max 0 (p.health - goalCreditSum s.enemies p.side) }) ∧
    (lookupA eid (enemySystemUpdate move s dt).enemies = none) ∧
    ((enemySystemUpdate move s dt).players.map (fun q => (q.1, q.2.credits)) =
      s.players.map (fun q => (q.1, q.2.credits))) :=
  enemySystemUpdate_goal_events move s dt pid eid p e hphase hcv hsides hlp hp0 huniq hmem hg

theorem goal_event_outcome_witness :
    (lookupA "p1" (enemySystemUpdate noMove fixtureLowHealthState 1).players =
      some { ({ fixturePlayer with health := 10 } : Player) with
             health := max 0 (({ fixturePlayer with health := 10 } : Player).health -
               goalCreditSum fixtureLowHealthState.enemies
                 ({ fixturePlayer with health := 10 } : Player).side) }) ∧
    (lookupA "e1" (enemySystemUpdate noMove fixtureLowHealthState 1).enemies = none) ∧
    ((enemySystemUpdate noMove fixtureLowHealthState 1).players.map
        (fun q => (q.1, q.2.credits)) =
      fixtureLowHealthState.players.map (fun q => (q.1, q.2.credits))) :=
  goal_event_outcome noMove fixtureLowHealthState 1 "p1" "e1"
    { fixturePlayer with health := 10 }
    { fixtureGoalEnemy with
      type := EnemyType.tank, health := 500, speed := 1, creditValue := 50 }
    rfl (by decide) (by decide) rfl (by decide)
    (by
      intro q hq hs
      have hq2 : q ∈ [("p1", ({ fixturePlayer with health := 10 } : Player))] := hq
      rw [List.mem_singleton] at hq2
      rw [hq2])
    (show ("e1", ({ fixtureGoalEnemy with
        type := EnemyType.tank, health := 500, speed := 1, creditValue := 50 } : Enemy)) ∈
      [("e1", ({ fixtureGoalEnemy with
        type := EnemyType.tank, health := 500, speed := 1, creditValue := 50 } : Enemy))]
      from List.mem_singleton.mpr rfl)
    (by decide)

/-- The claimed loss of exactly the credit value fails once it exceeds the
defender's health: the tank worth 50 credits reaching the goal of a player at
10 health leaves them at 0, not at 10 - 50. -/
theorem goal_damage_clamped_cex :
    (lookupA "p1" (enemySystemUpdate noMove fixtureLowHealthState 1).players =
      some { fixturePlayer with health := 0 }) ∧
    (0 : ℚ) ≠
      ({ fixturePlayer with health := 10 } : Player).health -
        ({ fixtureGoalEnemy with
           type := EnemyType.tank, health := 500, speed := 1,
           creditValue := 50 } : Enemy).creditValue := by
  have h := (enemySystemUpdate_goal_events noMove fixtureLowHealthState 1 "p1" "e1"
    { fixturePlayer with health := 10 }
    { fixtureGoalEnemy with
      type := EnemyType.tank, health := 500, speed := 1, creditValue := 50 }
    rfl (by decide) (by decide) rfl (by decide)
    (by
      intro q hq hs
      have hq2 : q ∈ [("p1", ({ fixturePlayer with health := 10 } : Player))] := hq
      rw [List.mem_singleton] at hq2
      rw [hq2])
    (show ("e1", ({ fixtureGoalEnemy with
        type := EnemyType.tank, health := 500, speed := 1, creditValue := 50 } : Enemy)) ∈
      [("e1", ({ fixtureGoalEnemy with
        type := EnemyType.tank, health := 500, speed := 1, creditValue := 50 } : Enemy))]
      from List.mem_singleton.mpr rfl)
    (by decide)).1
  have hG : goalCreditSum fixtureLowHealthState.enemies
      ({ fixturePlayer with health := 10 } : Player).side = 50 := by
    simp [goalCreditSum, enemyAtGoal, fixtureLowHealthState, fixtureStateBase,
      fixtureGoalEnemy, fixturePlayer]
  rw [hG] at h
  have hmax : max 0 (({ fixturePlayer with health := 10 } : Player).health - 50) = 0 := by
    have h1 : ({ fixturePlayer with health := 10 } : Player).health = 10 := rfl
    rw [h1]
    have h2 : (10 : ℚ) - 50 = -40 := by norm_num
    rw [h2]
    exact max_eq_left (by norm_num)
  rw [hmax] at h
  refine ⟨h, ?_⟩
  show (0 : ℚ) ≠ 10 - 50
  norm_num











end TD
